import Mathlib

/-!
Verification of the InteractiveObjectManager module (Unreal Engine demo project).

This file gives a shallow embedding, in Lean 4, of the pure logic of the
module's three cores:

* the validated settings store (`UInteractiveObjectSettings` together with
  `FInteractiveObjectRuntimeSettings`,
  `Source/InteractiveObjectManager/Private/Settings/InteractiveObjectSettings.cpp`),
* the per-world object registry
  (`UInteractiveObjectManagerSubsystem`, the subsystem translation unit),
* the interactive component's scale state
  (`UInteractiveObjectComponent`,
  `Source/InteractiveObjectManager/Private/Components/InteractiveObjectComponent.cpp`).

Modelling conventions:

* Engine `float`/`double` scalars are embedded as `Rat`.  All scalar logic in
  the sources is order comparisons, clamping and copying, which `Rat` models
  exactly (there are no NaN/infinity inputs in the modelled API surface).
* `GConfig` ini storage is embedded as explicit store values; a string held
  under an ini key for the color and scale fields is represented by the
  parse result it denotes (`ConfigEntry`), while the spawn-type key stores a
  real `String` because its parser (`TryParseSpawnType`) is string logic that
  we embed directly.
* Printing a float with `FString::Printf` fixed-point formats (`%3.3f` used
  by `FVector::ToString`, `%f` used by `FLinearColor::ToString`) is embedded
  as rounding the rational to the nearest multiple of `10^-3` resp. `10^-6`,
  which is exactly the value the printed decimal string denotes.
* Object handles (`UInteractiveObjectComponent*`) are embedded as `Nat`;
  `TWeakObjectPtr` staleness is tracked through an explicit set of destroyed
  handles carried in the registry state.
-/

set_option autoImplicit false

namespace InteractiveObjectManager

/-- Embedded spawn-type enum `EInteractiveObjectSpawnType`
(`Public/InteractiveObjectManagerTypes.h`). -/
inductive EInteractiveObjectSpawnType : Type
  | Cube
  | Sphere
  | Random
  deriving DecidableEq, Repr

/-- Embedded `FVector` restricted to what the module uses: three scalar
components, compared and copied componentwise. -/
structure FVector where
  X : Rat
  Y : Rat
  Z : Rat
  deriving DecidableEq, Repr

/-- Embedded `FLinearColor`: four scalar channels. -/
structure FLinearColor where
  R : Rat
  G : Rat
  B : Rat
  A : Rat
  deriving DecidableEq, Repr

/-- Engine constant `KINDA_SMALL_NUMBER = 1.e-4`, the default tolerance of
`FVector::IsNearlyZero`.  (Written with `mkRat` so that concrete instances
of the definitions evaluate by kernel reduction.) -/
def KINDA_SMALL_NUMBER : Rat := mkRat 1 10000

/-- Embedded `FMath::Abs` on scalars. -/
def FMathAbs (A : Rat) : Rat :=
  if A < 0 then -A else A

/-- Embedded `FVector::IsNearlyZero()` with the default tolerance: every
component is within `KINDA_SMALL_NUMBER` of zero in absolute value. -/
def FVector.IsNearlyZero (v : FVector) : Bool :=
  FMathAbs v.X ≤ KINDA_SMALL_NUMBER && FMathAbs v.Y ≤ KINDA_SMALL_NUMBER
    && FMathAbs v.Z ≤ KINDA_SMALL_NUMBER

/-- Embedded `FLinearColor::White`. -/
def FLinearColor.White : FLinearColor := ⟨1, 1, 1, 1⟩

/-- Embedded `FInteractiveObjectRuntimeSettings`
(`Public/Settings/InteractiveObjectSettings.h`): the validated snapshot of
default spawn type, color and scale. -/
structure FInteractiveObjectRuntimeSettings where
  DefaultSpawnType : EInteractiveObjectSpawnType
  DefaultColor : FLinearColor
  DefaultScale : FVector
  deriving DecidableEq, Repr

namespace FInteractiveObjectRuntimeSettings

/-- Embedded `FInteractiveObjectRuntimeSettings` member initializers
(Cube, white, unit scale): the state of a freshly constructed struct. -/
def construct : FInteractiveObjectRuntimeSettings :=
  { DefaultSpawnType := .Cube
    DefaultColor := .White
    DefaultScale := ⟨1, 1, 1⟩ }

/-- Embedded `FInteractiveObjectRuntimeSettings::IsValid`
(`InteractiveObjectSettings.cpp` lines 60-65): the scale must not be nearly
zero and each of its components must be strictly positive. -/
def IsValid (s : FInteractiveObjectRuntimeSettings) : Bool :=
  let bScaleNonZero := !s.DefaultScale.IsNearlyZero
  let bScalePositive := decide (s.DefaultScale.X > 0) && decide (s.DefaultScale.Y > 0)
    && decide (s.DefaultScale.Z > 0)
  bScaleNonZero && bScalePositive

/-- Embedded `FInteractiveObjectRuntimeSettings::ApplySafeDefaults`
(`InteractiveObjectSettings.cpp` lines 67-72).  The C++ method mutates in
place; the embedding returns the resulting value, which does not depend on
the previous one. -/
def ApplySafeDefaults : FInteractiveObjectRuntimeSettings :=
  { DefaultSpawnType := .Cube
    DefaultColor := .White
    DefaultScale := ⟨1, 1, 1⟩ }

end FInteractiveObjectRuntimeSettings

/-- Embedded `FString`: the character sequence it holds. -/
def FString : Type := List Char

instance : DecidableEq FString := inferInstanceAs (DecidableEq (List Char))

/-- Embedded `FString::Equals` with `ESearchCase::IgnoreCase`: equality of
the two strings after lowercasing each character. -/
def FStringEqualsIgnoreCase (a b : FString) : Bool :=
  decide (a.map Char.toLower = b.map Char.toLower)

/-- Embedded `TryParseSpawnType` (`InteractiveObjectSettings.cpp` lines
17-38): case-insensitive match against "Cube", "Sphere", "Random";
`none` models the `return false` path. -/
def TryParseSpawnType (InString : FString) : Option EInteractiveObjectSpawnType :=
  if FStringEqualsIgnoreCase InString ['C', 'u', 'b', 'e'] then some .Cube
  else if FStringEqualsIgnoreCase InString ['S', 'p', 'h', 'e', 'r', 'e'] then some .Sphere
  else if FStringEqualsIgnoreCase InString ['R', 'a', 'n', 'd', 'o', 'm'] then some .Random
  else none

/-- Embedded `SpawnTypeToString` (`InteractiveObjectSettings.cpp` lines
43-56). -/
def SpawnTypeToString : EInteractiveObjectSpawnType → FString
  | .Cube => ['C', 'u', 'b', 'e']
  | .Sphere => ['S', 'p', 'h', 'e', 'r', 'e']
  | .Random => ['R', 'a', 'n', 'd', 'o', 'm']

/-- Model of the string stored under an ini key for a value of type `α`:
either the key is absent, or it holds a string that fails to parse
(`garbage`), or it holds a string denoting the parsed value `a`. -/
inductive ConfigEntry (α : Type) : Type
  | missing
  | garbage
  | val (a : α)
  deriving DecidableEq, Repr

/-- Model of one ini file section `[InteractiveObjectManager.Settings]`:
the three keys the settings object reads and writes.  The spawn-type key
holds its raw string (its parser is embedded directly); the color and scale
keys hold the parse result their strings denote. -/
structure ConfigFile where
  DefaultSpawnType : Option FString
  DefaultColor : ConfigEntry FLinearColor
  DefaultScale : ConfigEntry FVector
  deriving DecidableEq

/-- Model of the `GConfig` state seen by the settings object: the user
file `GGameUserSettingsIni` and the project file `GGameIni`. -/
structure ConfigStore where
  gameUserSettingsIni : ConfigFile
  gameIni : ConfigFile
  deriving DecidableEq

/-- Embedded config file with no relevant keys set. -/
def ConfigFile.empty : ConfigFile :=
  { DefaultSpawnType := none, DefaultColor := .missing, DefaultScale := .missing }

/-- Lookup discipline shared by the three loaders (`InteractiveObjectSettings.cpp`
lines 309-342, 344-377, 379-412): `GConfig->GetString` on the user file
first, falling back to the project file only when the key is absent there. -/
def lookupKey {α : Type} (user game : ConfigEntry α) : ConfigEntry α :=
  match user with
  | .missing => game
  | e => e

/-- Spawn-type variant of the two-file lookup, on raw strings. -/
def lookupKeyStr (user game : Option FString) : Option FString :=
  match user with
  | none => game
  | some v => some v

namespace UInteractiveObjectSettings

open FInteractiveObjectRuntimeSettings

/-- String found for the `DefaultSpawnType` key by the two-file lookup of
`LoadSpawnTypeFromConfig` (`none` when the key is absent from both files). -/
def spawnTypeKeyValue (cfg : ConfigStore) : Option FString :=
  lookupKeyStr cfg.gameUserSettingsIni.DefaultSpawnType cfg.gameIni.DefaultSpawnType

/-- Entry found for the `DefaultColor` key by the two-file lookup of
`LoadColorFromConfig`. -/
def colorKeyValue (cfg : ConfigStore) : ConfigEntry FLinearColor :=
  lookupKey cfg.gameUserSettingsIni.DefaultColor cfg.gameIni.DefaultColor

/-- Entry found for the `DefaultScale` key by the two-file lookup of
`LoadScaleFromConfig`. -/
def scaleKeyValue (cfg : ConfigStore) : ConfigEntry FVector :=
  lookupKey cfg.gameUserSettingsIni.DefaultScale cfg.gameIni.DefaultScale

/-- Embedded `UInteractiveObjectSettings::LoadSpawnTypeFromConfig`
(`InteractiveObjectSettings.cpp` lines 309-342): missing key or failed
`TryParseSpawnType` leaves `OutSettings` untouched. -/
def LoadSpawnTypeFromConfig (cfg : ConfigStore) (OutSettings : FInteractiveObjectRuntimeSettings) :
    FInteractiveObjectRuntimeSettings :=
  match spawnTypeKeyValue cfg with
  | none => OutSettings
  | some Value =>
    match TryParseSpawnType Value with
    | none => OutSettings
    | some ParsedType => { OutSettings with DefaultSpawnType := ParsedType }

/-- Embedded `UInteractiveObjectSettings::LoadColorFromConfig`
(`InteractiveObjectSettings.cpp` lines 344-377): missing key or failed
`FLinearColor::InitFromString` leaves `OutSettings` untouched. -/
def LoadColorFromConfig (cfg : ConfigStore) (OutSettings : FInteractiveObjectRuntimeSettings) :
    FInteractiveObjectRuntimeSettings :=
  match colorKeyValue cfg with
  | .missing => OutSettings
  | .garbage => OutSettings
  | .val ParsedColor => { OutSettings with DefaultColor := ParsedColor }

/-- Embedded `UInteractiveObjectSettings::LoadScaleFromConfig`
(`InteractiveObjectSettings.cpp` lines 379-412): missing key or failed
`FVector::InitFromString` leaves `OutSettings` untouched. -/
def LoadScaleFromConfig (cfg : ConfigStore) (OutSettings : FInteractiveObjectRuntimeSettings) :
    FInteractiveObjectRuntimeSettings :=
  match scaleKeyValue cfg with
  | .missing => OutSettings
  | .garbage => OutSettings
  | .val ParsedScale => { OutSettings with DefaultScale := ParsedScale }

/-- Intermediate value of `TempSettings` in
`UInteractiveObjectSettings::LoadFromConfig` (`InteractiveObjectSettings.cpp`
lines 98-103): safe defaults overlaid with the three loaded keys, before the
final validation check. -/
def LoadedTempSettings (cfg : ConfigStore) : FInteractiveObjectRuntimeSettings :=
  LoadScaleFromConfig cfg (LoadColorFromConfig cfg (LoadSpawnTypeFromConfig cfg ApplySafeDefaults))

/-- Embedded `UInteractiveObjectSettings::LoadFromConfig`
(`InteractiveObjectSettings.cpp` lines 96-120): start from safe defaults,
load the three keys, and fall back to safe defaults when the assembled
snapshot fails `IsValid`.  The result is the new stored `RuntimeSettings`
value; it does not depend on the previously stored one. -/
def LoadFromConfig (cfg : ConfigStore) : FInteractiveObjectRuntimeSettings :=
  if (LoadedTempSettings cfg).IsValid then LoadedTempSettings cfg else ApplySafeDefaults

/-- Embedded `UInteractiveObjectSettings::UpdateRuntimeSettings`
(`InteractiveObjectSettings.cpp` lines 160-178): the stored value becomes
the argument when it validates, else the safe defaults. -/
def UpdateRuntimeSettings (NewSettings : FInteractiveObjectRuntimeSettings) :
    FInteractiveObjectRuntimeSettings :=
  if NewSettings.IsValid then NewSettings else ApplySafeDefaults

/-- Embedded `UInteractiveObjectSettings::ApplyDefaultsIfInvalid`
(`InteractiveObjectSettings.cpp` lines 143-152). -/
def ApplyDefaultsIfInvalid (RuntimeSettings : FInteractiveObjectRuntimeSettings) :
    FInteractiveObjectRuntimeSettings :=
  if RuntimeSettings.IsValid then RuntimeSettings else ApplySafeDefaults

/-- Embedded `FInteractiveObjectSettingsViewData` (forward-declared in
`Public/UI/InteractiveObjectManagerRootWidget.h`; its three fields are fixed
by their uses in `UpdateFromViewData`/`ToViewData`). -/
structure FInteractiveObjectSettingsViewData where
  DefaultSpawnType : EInteractiveObjectSpawnType
  DefaultColor : FLinearColor
  DefaultUniformScale : Rat
  deriving DecidableEq, Repr

/-- Embedded `FMath::Clamp` on scalars. -/
def FMathClamp (x lo hi : Rat) : Rat :=
  if x < lo then lo else if x < hi then x else hi

/-- Embedded `UInteractiveObjectSettings::UpdateFromViewData`
(`InteractiveObjectSettings.cpp` lines 192-238): overwrite spawn type and
color from the view data, clamp the requested uniform scale into
`[0.1, 10.0]` when out of range, store it on all three axes, and fall back
to safe defaults when the assembled snapshot fails `IsValid`. -/
def UpdateFromViewData (InViewData : FInteractiveObjectSettingsViewData)
    (RuntimeSettings : FInteractiveObjectRuntimeSettings) : FInteractiveObjectRuntimeSettings :=
  let s0 := { RuntimeSettings with
    DefaultSpawnType := InViewData.DefaultSpawnType
    DefaultColor := InViewData.DefaultColor }
  let MinScale : Rat := mkRat 1 10
  let MaxScale : Rat := 10
  let RequestedScale :=
    if InViewData.DefaultUniformScale < MinScale || InViewData.DefaultUniformScale > MaxScale then
      FMathClamp InViewData.DefaultUniformScale MinScale MaxScale
    else
      InViewData.DefaultUniformScale
  let NewSettings := { s0 with
    DefaultScale := ⟨RequestedScale, RequestedScale, RequestedScale⟩ }
  if NewSettings.IsValid then NewSettings else ApplySafeDefaults

/-- Power of ten as a rational, written through `mkRat` so that it reduces
in the kernel. -/
def pow10 (k : Nat) : Rat := mkRat ((10 : Nat) ^ k : Nat) 1

/-- Model of fixed-point decimal printing with `k` fractional digits
(`FString::Printf` of a scalar): the printed string denotes the nearest
multiple of `10^-k` of the value. -/
def printedDecimal (k : Nat) (x : Rat) : Rat :=
  Rat.divInt (Rat.floor (x * pow10 k + mkRat 1 2)) ((10 : Nat) ^ k : Nat)

/-- Model of `FVector::ToString`, which prints each component with `%3.3f`
(three fractional digits): the value its output string denotes after
reparsing with `FVector::InitFromString`. -/
def FVectorToStringValue (v : FVector) : FVector :=
  ⟨printedDecimal 3 v.X, printedDecimal 3 v.Y, printedDecimal 3 v.Z⟩

/-- Model of `FLinearColor::ToString`, which prints each channel with `%f`
(six fractional digits): the value its output string denotes after
reparsing with `FLinearColor::InitFromString`. -/
def FLinearColorToStringValue (c : FLinearColor) : FLinearColor :=
  ⟨printedDecimal 6 c.R, printedDecimal 6 c.G, printedDecimal 6 c.B, printedDecimal 6 c.A⟩

/-- Embedded `UInteractiveObjectSettings::SaveToConfig`
(`InteractiveObjectSettings.cpp` lines 122-141 together with the three
`Save*ToConfig` helpers at 414-445): the user ini file ends up holding
exactly the three key strings produced from the snapshot, the spawn type
via `SpawnTypeToString` and the color and scale via their `ToString`
formatting. -/
def SaveToConfig (RuntimeSettings : FInteractiveObjectRuntimeSettings) : ConfigFile :=
  { DefaultSpawnType := some (SpawnTypeToString RuntimeSettings.DefaultSpawnType)
    DefaultColor := .val (FLinearColorToStringValue RuntimeSettings.DefaultColor)
    DefaultScale := .val (FVectorToStringValue RuntimeSettings.DefaultScale) }

/-- States of the stored `RuntimeSettings` member reachable through the
public mutating operations of the settings store: initial construction,
`LoadFromConfig`, `UpdateRuntimeSettings`, `UpdateFromViewData` and
`ApplyDefaultsIfInvalid`. -/
inductive Reachable : FInteractiveObjectRuntimeSettings → Prop
  | construct : Reachable FInteractiveObjectRuntimeSettings.construct
  | load (cfg : ConfigStore) {s : FInteractiveObjectRuntimeSettings} :
      Reachable s → Reachable (LoadFromConfig cfg)
  | update (ns : FInteractiveObjectRuntimeSettings) {s : FInteractiveObjectRuntimeSettings} :
      Reachable s → Reachable (UpdateRuntimeSettings ns)
  | fromViewData (vd : FInteractiveObjectSettingsViewData)
      {s : FInteractiveObjectRuntimeSettings} :
      Reachable s → Reachable (UpdateFromViewData vd s)
  | applyDefaults {s : FInteractiveObjectRuntimeSettings} :
      Reachable s → Reachable (ApplyDefaultsIfInvalid s)

end UInteractiveObjectSettings

/-- Embedded `FMath::Max` on scalars (`(B < A) ? A : B`). -/
def FMathMax (A B : Rat) : Rat :=
  if B < A then A else B

namespace UInteractiveObjectComponent

/-- Embedded visual state of `UInteractiveObjectComponent`
(`InteractiveObjectComponent.cpp`): the stored color and uniform scale.
Engine-side effects (materials, mesh transform) are outside the state. -/
structure State where
  CurrentColor : FLinearColor
  CurrentScale : Rat
  deriving DecidableEq, Repr

/-- Embedded `UInteractiveObjectComponent` constructor state
(`InteractiveObjectComponent.cpp` lines 19-20): white color, unit scale. -/
def construct : State := ⟨.White, 1⟩

/-- Embedded `UInteractiveObjectComponent::ApplyColor`
(`InteractiveObjectComponent.cpp` lines 54-60) restricted to the stored
state. -/
def ApplyColor (NewColor : FLinearColor) (st : State) : State :=
  { st with CurrentColor := NewColor }

/-- Embedded `UInteractiveObjectComponent::ApplyScale`
(`InteractiveObjectComponent.cpp` lines 62-68): the stored scale becomes
`FMath::Max(NewScale, 0.01f)`. -/
def ApplyScale (NewScale : Rat) (st : State) : State :=
  { st with CurrentScale := FMathMax NewScale (mkRat 1 100) }

/-- Embedded `UInteractiveObjectComponent::GetCurrentScale`
(`InteractiveObjectComponent.cpp` lines 75-78). -/
def GetCurrentScale (st : State) : Rat :=
  st.CurrentScale

end UInteractiveObjectComponent

/-! ## Registry subsystem (`UInteractiveObjectManagerSubsystem`)

The embedded registry state follows the subsystem translation unit.
Component handles (`UInteractiveObjectComponent*`) are `Nat`; destruction of
the owning actor is tracked by the `destroyed` list, and a
`TWeakObjectPtr`'s `IsValid`/`Get` consult it.  Each operation returns the
new state together with the delegate broadcasts it performed, in order. -/

/-- Engine constant `INDEX_NONE = -1`. -/
def INDEX_NONE : Int := -1

/-- Embedded private record type
`UInteractiveObjectManagerSubsystem::FInteractiveObjectRecord`. -/
structure FInteractiveObjectRecord where
  ObjectId : Int
  Component : Nat
  deriving DecidableEq, Repr

/-- Embedded mutable state of `UInteractiveObjectManagerSubsystem`, plus the
`destroyed` set of component handles whose objects have been destroyed
(engine state consulted by weak-pointer validity). -/
structure ManagerState where
  NextObjectId : Int
  RegisteredObjects : List FInteractiveObjectRecord
  SelectedObjectId : Int
  SelectedObject : Option Nat
  destroyed : List Nat
  deriving DecidableEq, Repr

/-- Broadcast performed through one of the two subsystem delegates.  A
`listChanged` carries the ids of the snapshot items built by
`GetInteractiveObjectsList` (display names live engine-side); a
`selectionChanged` carries the `SelectedObjectId` value broadcast. -/
inductive BEvent : Type
  | listChanged (ids : List Int)
  | selectionChanged (id : Int)
  deriving DecidableEq, Repr

namespace UInteractiveObjectManagerSubsystem

/-- Embedded `UInteractiveObjectManagerSubsystem` constructor (subsystem
translation unit, lines 13-17): next id 1, nothing registered or selected. -/
def construct : ManagerState :=
  { NextObjectId := 1
    RegisteredObjects := []
    SelectedObjectId := INDEX_NONE
    SelectedObject := none
    destroyed := [] }

/-- Validity of a weak pointer to component `c`: the owning object has not
been destroyed. -/
def compIsValid (s : ManagerState) (c : Nat) : Bool :=
  ! s.destroyed.contains c

/-- Embedded `TWeakObjectPtr::Get`: the raw pointer when still valid,
`nullptr` (`none`) otherwise. -/
def weakGet (s : ManagerState) (w : Option Nat) : Option Nat :=
  match w with
  | none => none
  | some c => if compIsValid s c then some c else none

/-- Shared clearing of the two selection fields
(`SelectedObjectId = INDEX_NONE; SelectedObject.Reset()`). -/
def clearSelectionFields (s : ManagerState) : ManagerState :=
  { s with SelectedObjectId := INDEX_NONE, SelectedObject := none }

/-- Embedded `InvalidateSelectionIfNoLongerValid` (subsystem translation
unit, lines 605-636): keep the selection only when the selected component is
valid and a record with both the selected id and the selected component is
present; otherwise clear it and broadcast. -/
def InvalidateSelectionIfNoLongerValid (s : ManagerState) : ManagerState × List BEvent :=
  if s.SelectedObjectId = INDEX_NONE then (s, [])
  else if (weakGet s s.SelectedObject).isNone then
    (clearSelectionFields s, [.selectionChanged INDEX_NONE])
  else
    let bFound := s.RegisteredObjects.any fun r =>
      decide (r.ObjectId = s.SelectedObjectId) && decide (some r.Component = s.SelectedObject)
    if bFound then (s, [])
    else (clearSelectionFields s, [.selectionChanged INDEX_NONE])

/-- Embedded `CleanupInvalidRecords` (subsystem translation unit, lines
561-572): drop records whose component is no longer valid, then revalidate
the selection. -/
def CleanupInvalidRecords (s : ManagerState) : ManagerState × List BEvent :=
  InvalidateSelectionIfNoLongerValid
    { s with RegisteredObjects := s.RegisteredObjects.filter fun r => compIsValid s r.Component }

/-- Ids of the snapshot items built by `GetInteractiveObjectsList` (records
whose `Get()` is null are skipped). -/
def listItems (s : ManagerState) : List Int :=
  (s.RegisteredObjects.filter fun r => compIsValid s r.Component).map (fun r => r.ObjectId)

/-- Embedded `GetInteractiveObjectsList` (subsystem translation unit, lines
269-293): it mutates through `CleanupInvalidRecords` before building the
snapshot `listItems`. -/
def GetInteractiveObjectsList (s : ManagerState) : ManagerState × List BEvent :=
  CleanupInvalidRecords s

/-- Embedded `BroadcastObjectsListChanged` (subsystem translation unit,
lines 638-644): build the snapshot through `GetInteractiveObjectsList` and
broadcast it. -/
def BroadcastObjectsListChanged (s : ManagerState) : ManagerState × List BEvent :=
  let r := GetInteractiveObjectsList s
  (r.1, r.2 ++ [.listChanged (listItems r.1)])

/-- Embedded `FindRecordById` (subsystem translation unit, lines 574-585). -/
def FindRecordById (s : ManagerState) (ObjectId : Int) : Option FInteractiveObjectRecord :=
  s.RegisteredObjects.find? fun r =>
    decide (r.ObjectId = ObjectId) && compIsValid s r.Component

/-- Embedded `FindRecordByComponent` (subsystem translation unit, lines
587-603): first record whose `Component.Get()` equals the raw pointer. -/
def FindRecordByComponent (s : ManagerState) (c : Nat) : Option FInteractiveObjectRecord :=
  s.RegisteredObjects.find? fun r => decide (weakGet s (some r.Component) = some c)

/-- Removal of the first list element satisfying `p`, returning the new list
and the removed element (the `RemoveAt` inside a forward scan used by
`UnregisterInteractiveObject` and `DeleteSelectedObject`). -/
def removeFirstBy (p : FInteractiveObjectRecord → Bool) :
    List FInteractiveObjectRecord → List FInteractiveObjectRecord × Option FInteractiveObjectRecord
  | [] => ([], none)
  | r :: rest =>
    if p r then (rest, some r)
    else
      let q := removeFirstBy p rest
      (r :: q.1, q.2)

/-- Embedded `RegisterInteractiveObject` (subsystem translation unit, lines
183-228): ignore null, cleanup, refuse duplicates, append a record with the
next id, autoselect it when nothing is selected, broadcast the list. -/
def RegisterInteractiveObject (c : Option Nat) (s : ManagerState) : ManagerState × List BEvent :=
  match c with
  | none => (s, [])
  | some c =>
    let r1 := CleanupInvalidRecords s
    let s1 := r1.1
    match FindRecordByComponent s1 c with
    | some _ => (s1, r1.2)
    | none =>
      let NewRecord : FInteractiveObjectRecord := ⟨s1.NextObjectId, c⟩
      let s2 := { s1 with
        NextObjectId := s1.NextObjectId + 1
        RegisteredObjects := s1.RegisteredObjects ++ [NewRecord] }
      let auto :=
        if s2.SelectedObjectId = INDEX_NONE then
          ({ s2 with SelectedObjectId := NewRecord.ObjectId, SelectedObject := some c },
            [BEvent.selectionChanged NewRecord.ObjectId])
        else (s2, ([] : List BEvent))
      let r3 := BroadcastObjectsListChanged auto.1
      (r3.1, r1.2 ++ auto.2 ++ r3.2)

/-- Embedded `UnregisterInteractiveObject` (subsystem translation unit,
lines 230-267): ignore null, cleanup, remove the first record whose
component matches, clear the selection when it pointed at the removed id,
broadcast the list; no broadcast when nothing matched. -/
def UnregisterInteractiveObject (c : Option Nat) (s : ManagerState) : ManagerState × List BEvent :=
  match c with
  | none => (s, [])
  | some c =>
    let r1 := CleanupInvalidRecords s
    let s1 := r1.1
    let rem := removeFirstBy (fun r => decide (weakGet s1 (some r.Component) = some c))
      s1.RegisteredObjects
    match rem.2 with
    | none => (s1, r1.2)
    | some Record =>
      let RemovedId := Record.ObjectId
      let s2 := { s1 with RegisteredObjects := rem.1 }
      let sel :=
        if s2.SelectedObjectId = RemovedId then
          (clearSelectionFields s2, [BEvent.selectionChanged INDEX_NONE])
        else (s2, ([] : List BEvent))
      let r3 := BroadcastObjectsListChanged sel.1
      (r3.1, r1.2 ++ sel.2 ++ r3.2)

/-- Embedded `SelectObjectById` (subsystem translation unit, lines 295-314). -/
def SelectObjectById (ObjectId : Int) (s : ManagerState) : ManagerState × List BEvent × Bool :=
  if ObjectId = s.SelectedObjectId then (s, [], false)
  else
    let r1 := CleanupInvalidRecords s
    let s1 := r1.1
    match FindRecordById s1 ObjectId with
    | some Record =>
      ({ s1 with SelectedObjectId := Record.ObjectId, SelectedObject := some Record.Component },
        r1.2 ++ [.selectionChanged Record.ObjectId], true)
    | none => (s1, r1.2, false)

/-- Embedded `SelectObjectByIndex` (subsystem translation unit, lines
316-341).  `TArray::IsValidIndex` is a signed bounds check. -/
def SelectObjectByIndex (Index : Int) (s : ManagerState) : ManagerState × List BEvent × Bool :=
  let r1 := CleanupInvalidRecords s
  let s1 := r1.1
  if Index < 0 then (s1, r1.2, false)
  else
    match s1.RegisteredObjects.get? Index.toNat with
    | none => (s1, r1.2, false)
    | some Record =>
      if !compIsValid s1 Record.Component then (s1, r1.2, false)
      else if Record.ObjectId = s1.SelectedObjectId then (s1, r1.2, false)
      else
        ({ s1 with
            SelectedObjectId := Record.ObjectId
            SelectedObject := some Record.Component },
          r1.2 ++ [.selectionChanged Record.ObjectId], true)

/-- Embedded `ClearSelection` (subsystem translation unit, lines 343-355). -/
def ClearSelection (s : ManagerState) : ManagerState × List BEvent × Bool :=
  if s.SelectedObjectId = INDEX_NONE && (weakGet s s.SelectedObject).isNone then (s, [], false)
  else (clearSelectionFields s, [.selectionChanged INDEX_NONE], true)

/-- Embedded `SetSelectedObjectColor` (subsystem translation unit, lines
448-473): applies the color to the selected component, touching no registry
state; fails without a valid selection. -/
def SetSelectedObjectColor (_NewColor : FLinearColor) (s : ManagerState) :
    ManagerState × List BEvent × Bool :=
  if (weakGet s s.SelectedObject).isNone then (s, [], false) else (s, [], true)

/-- Embedded `SetSelectedObjectUniformScale` (subsystem translation unit,
lines 475-500): applies the scale to the selected component, touching no
registry state; fails without a valid selection. -/
def SetSelectedObjectUniformScale (_NewUniformScale : Rat) (s : ManagerState) :
    ManagerState × List BEvent × Bool :=
  if (weakGet s s.SelectedObject).isNone then (s, [], false) else (s, [], true)

/-- Embedded `DeleteSelectedObject` (subsystem translation unit, lines
502-559): clear the selection, remove the record carrying the old selected
id, destroy the owner actor (which reentrantly runs the component's
`EndPlay` unregistration), select the first remaining record when any, and
broadcast both list and selection.  The boolean is `bSuccess`. -/
def DeleteSelectedObject (s : ManagerState) : ManagerState × List BEvent × Bool :=
  match weakGet s s.SelectedObject with
  | none => (s, [], false)
  | some c =>
    let ObjectIdToRemove := s.SelectedObjectId
    let s1 := clearSelectionFields s
    let rem := removeFirstBy (fun r => decide (r.ObjectId = ObjectIdToRemove))
      s1.RegisteredObjects
    let s2 := { s1 with RegisteredObjects := rem.1 }
    let s3 := { s2 with destroyed := c :: s2.destroyed }
    let r4 := UnregisterInteractiveObject (some c) s3
    let s5 :=
      match r4.1.RegisteredObjects.head? with
      | some FirstRecord =>
        { r4.1 with
          SelectedObjectId := FirstRecord.ObjectId
          SelectedObject := some FirstRecord.Component }
      | none => r4.1
    let r6 := BroadcastObjectsListChanged s5
    (r6.1, r4.2 ++ r6.2 ++ [BEvent.selectionChanged r6.1.SelectedObjectId], rem.2.isSome)

/-- Public operations of the subsystem, as named by the claims: register,
unregister, select by id or index, clear selection, set color, set scale,
delete, get list. -/
inductive ManagerOp : Type
  | register (c : Option Nat)
  | unregister (c : Option Nat)
  | selectById (ObjectId : Int)
  | selectByIndex (Index : Int)
  | clearSelection
  | setColor (NewColor : FLinearColor)
  | setScale (NewUniformScale : Rat)
  | deleteSelected
  | getList

/-- One public operation: the new registry state and the broadcasts it
performed, in order. -/
def step : ManagerOp → ManagerState → ManagerState × List BEvent
  | .register c, s => RegisterInteractiveObject c s
  | .unregister c, s => UnregisterInteractiveObject c s
  | .selectById i, s => ((SelectObjectById i s).1, (SelectObjectById i s).2.1)
  | .selectByIndex i, s => ((SelectObjectByIndex i s).1, (SelectObjectByIndex i s).2.1)
  | .clearSelection, s => ((ClearSelection s).1, (ClearSelection s).2.1)
  | .setColor c, s => ((SetSelectedObjectColor c s).1, (SetSelectedObjectColor c s).2.1)
  | .setScale x, s => ((SetSelectedObjectUniformScale x s).1,
      (SetSelectedObjectUniformScale x s).2.1)
  | .deleteSelected, s => ((DeleteSelectedObject s).1, (DeleteSelectedObject s).2.1)
  | .getList, s => GetInteractiveObjectsList s

/-- Engine-side precondition of an operation: a component registers itself
from its own `BeginPlay`, so a destroyed component never registers again. -/
def RegOk : ManagerOp → ManagerState → Prop
  | .register (some c), s => s.destroyed.contains c = false
  | _, _ => True

/-- Registry states reachable through the public subsystem operations. -/
inductive ReachableM : ManagerState → Prop
  | construct : ReachableM construct
  | step (o : ManagerOp) {s : ManagerState} :
      ReachableM s → RegOk o s → ReachableM (step o s).1

/-- Ids of the registered records, in registration order. -/
def registeredIds (s : ManagerState) : List Int :=
  s.RegisteredObjects.map (fun r => r.ObjectId)

/-- Internal invariant of the registry state: the ids are strictly
increasing and below `NextObjectId`, every registered component is live and
components are pairwise distinct, and the selection either is cleared or
points at a registered record. -/
structure Inv (s : ManagerState) : Prop where
  ids_sorted : (registeredIds s).Pairwise (· < ·)
  ids_lt : ∀ r ∈ s.RegisteredObjects, r.ObjectId < s.NextObjectId
  live : ∀ r ∈ s.RegisteredObjects, s.destroyed.contains r.Component = false
  comps_nodup : (s.RegisteredObjects.map (fun r => r.Component)).Nodup
  sel : (s.SelectedObjectId = INDEX_NONE ∧ s.SelectedObject = none) ∨
    (∃ r ∈ s.RegisteredObjects, r.ObjectId = s.SelectedObjectId ∧
      s.SelectedObject = some r.Component)

end UInteractiveObjectManagerSubsystem

/-! ## Theorems: settings store -/

namespace UInteractiveObjectSettings

open FInteractiveObjectRuntimeSettings

theorem applySafeDefaults_isValid : ApplySafeDefaults.IsValid = true := by decide

theorem validate_fallback_isValid (x : FInteractiveObjectRuntimeSettings) :
    (if x.IsValid then x else ApplySafeDefaults).IsValid = true := by
  cases hx : x.IsValid
  · simp [hx, applySafeDefaults_isValid]
  · simp [hx]

theorem loadFromConfig_isValid (cfg : ConfigStore) : (LoadFromConfig cfg).IsValid = true := by
  unfold LoadFromConfig
  exact validate_fallback_isValid _

end UInteractiveObjectSettings

/-- C1: for every sequence of public settings-store operations (initial
construction, `LoadFromConfig`, `UpdateRuntimeSettings`, `UpdateFromViewData`,
`ApplyDefaultsIfInvalid`), the stored runtime settings satisfy `IsValid`
afterwards: the default scale is not nearly zero and each of its components
is strictly greater than 0. -/
theorem c1_settings_store_always_valid (s : FInteractiveObjectRuntimeSettings)
    (h : UInteractiveObjectSettings.Reachable s) : s.IsValid = true := by
  induction h with
  | construct => decide
  | load cfg _ _ => exact UInteractiveObjectSettings.loadFromConfig_isValid cfg
  | update ns _ _ =>
    unfold UInteractiveObjectSettings.UpdateRuntimeSettings
    exact UInteractiveObjectSettings.validate_fallback_isValid _
  | fromViewData vd _ _ =>
    unfold UInteractiveObjectSettings.UpdateFromViewData
    exact UInteractiveObjectSettings.validate_fallback_isValid _
  | applyDefaults _ _ =>
    unfold UInteractiveObjectSettings.ApplyDefaultsIfInvalid
    exact UInteractiveObjectSettings.validate_fallback_isValid _

/-- Witness for C1 at a concrete reachable state. -/
theorem c1_settings_store_always_valid_witness :
    FInteractiveObjectRuntimeSettings.construct.IsValid = true :=
  c1_settings_store_always_valid _ UInteractiveObjectSettings.Reachable.construct

namespace UInteractiveObjectSettings

theorem mkRat_tenth_eq : (mkRat 1 10 : Rat) = 1 / 10 := by
  rw [Rat.mkRat_eq_div]; norm_num

theorem mkRat_tol_eq : KINDA_SMALL_NUMBER = 1 / 10000 := by
  rw [KINDA_SMALL_NUMBER, Rat.mkRat_eq_div]; norm_num

theorem FMathClamp_of_lt_lo {u lo hi : Rat} (h : u < lo) : FMathClamp u lo hi = lo := by
  unfold FMathClamp
  simp [h]

theorem FMathClamp_of_mem {u lo hi : Rat} (h1 : lo ≤ u) (h2 : u ≤ hi) :
    FMathClamp u lo hi = u := by
  unfold FMathClamp
  split_ifs with ha hb
  · linarith
  · rfl
  · linarith

theorem FMathClamp_of_gt_hi {u lo hi : Rat} (hlo : lo ≤ hi) (h : hi < u) :
    FMathClamp u lo hi = hi := by
  unfold FMathClamp
  split_ifs with ha hb
  · linarith
  · linarith
  · rfl

theorem FMathClamp_lo_le {u lo hi : Rat} (hlo : lo ≤ hi) : lo ≤ FMathClamp u lo hi := by
  unfold FMathClamp
  split_ifs with ha hb
  · exact le_refl lo
  · linarith
  · exact hlo

theorem requestedScale_eq_clamp (u : Rat) :
    (if u < mkRat 1 10 || u > (10 : Rat) then FMathClamp u (mkRat 1 10) 10 else u) =
      FMathClamp u (mkRat 1 10) 10 := by
  by_cases h1 : u < mkRat 1 10
  · simp [h1]
  · by_cases h2 : (10 : Rat) < u
    · simp [h1, h2]
    · simp only [h1, h2, gt_iff_lt, decide_eq_true_eq, Bool.or_self, if_neg, decide_eq_false h1,
        decide_eq_false h2, Bool.or_false, Bool.false_or, if_false]
      exact (FMathClamp_of_mem (le_of_not_lt h1) (le_of_not_lt h2)).symm

theorem isValid_uniform (st : EInteractiveObjectSpawnType) (cl : FLinearColor) (c : Rat)
    (h : mkRat 1 10 ≤ c) :
    FInteractiveObjectRuntimeSettings.IsValid ⟨st, cl, ⟨c, c, c⟩⟩ = true := by
  have h0 : (0 : Rat) < c := lt_of_lt_of_le (by rw [mkRat_tenth_eq]; norm_num) h
  have htol : ¬ (c ≤ KINDA_SMALL_NUMBER) := by
    rw [mkRat_tol_eq]
    rw [mkRat_tenth_eq] at h
    intro hc
    linarith
  unfold FInteractiveObjectRuntimeSettings.IsValid FVector.IsNearlyZero FMathAbs
  simp only [not_lt.mpr h0.le, if_neg, if_false]
  simp [htol, h0]

theorem updateFromViewData_scale_eq (vd : FInteractiveObjectSettingsViewData)
    (s : FInteractiveObjectRuntimeSettings) :
    (UpdateFromViewData vd s).DefaultScale =
      ⟨FMathClamp vd.DefaultUniformScale (mkRat 1 10) 10,
        FMathClamp vd.DefaultUniformScale (mkRat 1 10) 10,
        FMathClamp vd.DefaultUniformScale (mkRat 1 10) 10⟩ := by
  have hclo : mkRat 1 10 ≤ FMathClamp vd.DefaultUniformScale (mkRat 1 10) 10 :=
    FMathClamp_lo_le (by rw [mkRat_tenth_eq]; norm_num)
  unfold UpdateFromViewData
  simp only [requestedScale_eq_clamp]
  rw [if_pos]
  exact isValid_uniform _ _ _ hclo

end UInteractiveObjectSettings

/-- C3: for every view-data input, `UpdateFromViewData` stores the default
scale as the uniform vector `(s, s, s)` where `s` is the input uniform scale
clamped to `[0.1, 10.0]`; an in-range input is stored exactly and an
out-of-range input is replaced by the nearer bound. -/
theorem c3_update_from_view_data_clamps (vd : UInteractiveObjectSettings.FInteractiveObjectSettingsViewData)
    (s : FInteractiveObjectRuntimeSettings) :
    (UInteractiveObjectSettings.UpdateFromViewData vd s).DefaultScale =
      ⟨UInteractiveObjectSettings.FMathClamp vd.DefaultUniformScale (mkRat 1 10) 10,
        UInteractiveObjectSettings.FMathClamp vd.DefaultUniformScale (mkRat 1 10) 10,
        UInteractiveObjectSettings.FMathClamp vd.DefaultUniformScale (mkRat 1 10) 10⟩ ∧
    (mkRat 1 10 ≤ vd.DefaultUniformScale → vd.DefaultUniformScale ≤ 10 →
      UInteractiveObjectSettings.FMathClamp vd.DefaultUniformScale (mkRat 1 10) 10 =
        vd.DefaultUniformScale) ∧
    (vd.DefaultUniformScale < mkRat 1 10 →
      UInteractiveObjectSettings.FMathClamp vd.DefaultUniformScale (mkRat 1 10) 10 = mkRat 1 10 ∧
      |vd.DefaultUniformScale - mkRat 1 10| ≤ |vd.DefaultUniformScale - 10|) ∧
    (10 < vd.DefaultUniformScale →
      UInteractiveObjectSettings.FMathClamp vd.DefaultUniformScale (mkRat 1 10) 10 = 10 ∧
      |vd.DefaultUniformScale - 10| ≤ |vd.DefaultUniformScale - mkRat 1 10|) := by
  refine ⟨UInteractiveObjectSettings.updateFromViewData_scale_eq vd s, ?_, ?_, ?_⟩
  · intro h1 h2
    exact UInteractiveObjectSettings.FMathClamp_of_mem h1 h2
  · intro h
    have h10 : (mkRat 1 10 : Rat) = 1 / 10 := UInteractiveObjectSettings.mkRat_tenth_eq
    refine ⟨UInteractiveObjectSettings.FMathClamp_of_lt_lo h, ?_⟩
    rw [h10] at h ⊢
    rw [abs_of_nonpos (by linarith), abs_of_nonpos (by linarith)]
    linarith
  · intro h
    have h10 : (mkRat 1 10 : Rat) = 1 / 10 := UInteractiveObjectSettings.mkRat_tenth_eq
    have hlt : (1 / 10 : Rat) < 10 := by norm_num
    refine ⟨UInteractiveObjectSettings.FMathClamp_of_gt_hi (by rw [h10]; norm_num) h, ?_⟩
    rw [h10]
    rw [abs_of_nonneg (by linarith), abs_of_nonneg (by linarith)]
    linarith

/-- Witness for C3 at the concrete out-of-range input 0. -/
theorem c3_update_from_view_data_clamps_witness :
    (UInteractiveObjectSettings.UpdateFromViewData ⟨.Cube, .White, 0⟩
        FInteractiveObjectRuntimeSettings.construct).DefaultScale =
      ⟨mkRat 1 10, mkRat 1 10, mkRat 1 10⟩ := by
  have h := c3_update_from_view_data_clamps ⟨.Cube, .White, 0⟩
    FInteractiveObjectRuntimeSettings.construct
  have hlt : (0 : Rat) < mkRat 1 10 := by decide
  rw [h.1, (h.2.2.1 hlt).1]

namespace UInteractiveObjectSettings

theorem loadSpawnType_defaultColor (cfg : ConfigStore) (t : FInteractiveObjectRuntimeSettings) :
    (LoadSpawnTypeFromConfig cfg t).DefaultColor = t.DefaultColor := by
  unfold LoadSpawnTypeFromConfig
  split
  · rfl
  · split <;> rfl

theorem loadSpawnType_defaultScale (cfg : ConfigStore) (t : FInteractiveObjectRuntimeSettings) :
    (LoadSpawnTypeFromConfig cfg t).DefaultScale = t.DefaultScale := by
  unfold LoadSpawnTypeFromConfig
  split
  · rfl
  · split <;> rfl

theorem loadColor_defaultSpawnType (cfg : ConfigStore) (t : FInteractiveObjectRuntimeSettings) :
    (LoadColorFromConfig cfg t).DefaultSpawnType = t.DefaultSpawnType := by
  unfold LoadColorFromConfig
  cases colorKeyValue cfg <;> rfl

theorem loadColor_defaultScale (cfg : ConfigStore) (t : FInteractiveObjectRuntimeSettings) :
    (LoadColorFromConfig cfg t).DefaultScale = t.DefaultScale := by
  unfold LoadColorFromConfig
  cases colorKeyValue cfg <;> rfl

theorem loadScale_defaultSpawnType (cfg : ConfigStore) (t : FInteractiveObjectRuntimeSettings) :
    (LoadScaleFromConfig cfg t).DefaultSpawnType = t.DefaultSpawnType := by
  unfold LoadScaleFromConfig
  cases scaleKeyValue cfg <;> rfl

theorem loadScale_defaultColor (cfg : ConfigStore) (t : FInteractiveObjectRuntimeSettings) :
    (LoadScaleFromConfig cfg t).DefaultColor = t.DefaultColor := by
  unfold LoadScaleFromConfig
  cases scaleKeyValue cfg <;> rfl

theorem loadSpawnType_of_fail (cfg : ConfigStore) (t : FInteractiveObjectRuntimeSettings)
    (h : spawnTypeKeyValue cfg = none ∨
      ∃ v, spawnTypeKeyValue cfg = some v ∧ TryParseSpawnType v = none) :
    LoadSpawnTypeFromConfig cfg t = t := by
  unfold LoadSpawnTypeFromConfig
  rcases h with h | ⟨v, hv, hp⟩
  · rw [h]
  · rw [hv]
    split
    · rfl
    · simp_all

theorem loadColor_of_fail (cfg : ConfigStore) (t : FInteractiveObjectRuntimeSettings)
    (h : colorKeyValue cfg = .missing ∨ colorKeyValue cfg = .garbage) :
    LoadColorFromConfig cfg t = t := by
  unfold LoadColorFromConfig
  rcases h with h | h <;> rw [h]

theorem loadScale_of_fail (cfg : ConfigStore) (t : FInteractiveObjectRuntimeSettings)
    (h : scaleKeyValue cfg = .missing ∨ scaleKeyValue cfg = .garbage) :
    LoadScaleFromConfig cfg t = t := by
  unfold LoadScaleFromConfig
  rcases h with h | h <;> rw [h]

end UInteractiveObjectSettings

/-- C2: when the config key for one of the three settings fields is missing
or unparseable, `LoadFromConfig` leaves that field at the safe default
(Cube, white, unit scale); when the assembled settings fail validation it
replaces all three fields with the safe defaults; and its result always
satisfies `IsValid`, so loading corrupt config data never produces invalid
runtime settings. -/
theorem c2_load_from_config_safe_defaults (cfg : ConfigStore) :
    ((UInteractiveObjectSettings.spawnTypeKeyValue cfg = none ∨
        ∃ v, UInteractiveObjectSettings.spawnTypeKeyValue cfg = some v ∧
          TryParseSpawnType v = none) →
      (UInteractiveObjectSettings.LoadFromConfig cfg).DefaultSpawnType = .Cube) ∧
    ((UInteractiveObjectSettings.colorKeyValue cfg = .missing ∨
        UInteractiveObjectSettings.colorKeyValue cfg = .garbage) →
      (UInteractiveObjectSettings.LoadFromConfig cfg).DefaultColor = .White) ∧
    ((UInteractiveObjectSettings.scaleKeyValue cfg = .missing ∨
        UInteractiveObjectSettings.scaleKeyValue cfg = .garbage) →
      (UInteractiveObjectSettings.LoadFromConfig cfg).DefaultScale = ⟨1, 1, 1⟩) ∧
    ((UInteractiveObjectSettings.LoadedTempSettings cfg).IsValid = false →
      UInteractiveObjectSettings.LoadFromConfig cfg =
        FInteractiveObjectRuntimeSettings.ApplySafeDefaults) ∧
    (UInteractiveObjectSettings.LoadFromConfig cfg).IsValid = true := by
  refine ⟨?_, ?_, ?_, ?_, UInteractiveObjectSettings.loadFromConfig_isValid cfg⟩
  · intro h
    have h1 : (UInteractiveObjectSettings.LoadedTempSettings cfg).DefaultSpawnType = .Cube := by
      unfold UInteractiveObjectSettings.LoadedTempSettings
      rw [UInteractiveObjectSettings.loadScale_defaultSpawnType,
        UInteractiveObjectSettings.loadColor_defaultSpawnType,
        UInteractiveObjectSettings.loadSpawnType_of_fail cfg _ h]
      rfl
    unfold UInteractiveObjectSettings.LoadFromConfig
    split
    · exact h1
    · rfl
  · intro h
    have h1 : (UInteractiveObjectSettings.LoadedTempSettings cfg).DefaultColor = .White := by
      unfold UInteractiveObjectSettings.LoadedTempSettings
      rw [UInteractiveObjectSettings.loadScale_defaultColor,
        UInteractiveObjectSettings.loadColor_of_fail cfg _ h,
        UInteractiveObjectSettings.loadSpawnType_defaultColor]
      rfl
    unfold UInteractiveObjectSettings.LoadFromConfig
    split
    · exact h1
    · rfl
  · intro h
    have h1 : (UInteractiveObjectSettings.LoadedTempSettings cfg).DefaultScale = ⟨1, 1, 1⟩ := by
      unfold UInteractiveObjectSettings.LoadedTempSettings
      rw [UInteractiveObjectSettings.loadScale_of_fail cfg _ h,
        UInteractiveObjectSettings.loadColor_defaultScale,
        UInteractiveObjectSettings.loadSpawnType_defaultScale]
      rfl
    unfold UInteractiveObjectSettings.LoadFromConfig
    split
    · exact h1
    · rfl
  · intro h
    unfold UInteractiveObjectSettings.LoadFromConfig
    rw [h]
    rfl

/-- Witness for C2 at a concrete config store with an unparseable spawn-type
string, a missing color key and a corrupt scale string. -/
theorem c2_load_from_config_safe_defaults_witness :
    (UInteractiveObjectSettings.LoadFromConfig
        ⟨⟨some ['x'], .missing, .garbage⟩, ConfigFile.empty⟩).DefaultSpawnType = .Cube ∧
    (UInteractiveObjectSettings.LoadFromConfig
        ⟨⟨some ['x'], .missing, .garbage⟩, ConfigFile.empty⟩).DefaultColor = .White ∧
    (UInteractiveObjectSettings.LoadFromConfig
        ⟨⟨some ['x'], .missing, .garbage⟩, ConfigFile.empty⟩).DefaultScale = ⟨1, 1, 1⟩ ∧
    (UInteractiveObjectSettings.LoadFromConfig
        ⟨⟨some ['x'], .missing, .garbage⟩, ConfigFile.empty⟩).IsValid = true := by
  have h := c2_load_from_config_safe_defaults ⟨⟨some ['x'], .missing, .garbage⟩, ConfigFile.empty⟩
  exact ⟨h.1 (Or.inr ⟨['x'], rfl, by decide⟩), h.2.1 (Or.inl rfl), h.2.2.1 (Or.inr rfl),
    h.2.2.2.2⟩

namespace UInteractiveObjectSettings

theorem ratFloor_eq_intFloor (q : Rat) : Rat.floor q = ⌊q⌋ := by
  rw [Rat.floor_def', Rat.floor_def]

theorem ratFloor_eq_of_bounds (q : Rat) (n : Int) (h1 : (n : Rat) ≤ q) (h2 : q < n + 1) :
    Rat.floor q = n := by
  rw [ratFloor_eq_intFloor]
  exact Int.floor_eq_iff.mpr ⟨h1, h2⟩

theorem pow10_eq (k : Nat) : pow10 k = (10 : Rat) ^ k := by
  unfold pow10
  rw [Rat.mkRat_eq_div]
  push_cast
  norm_num

theorem mkRat_half_eq : (mkRat 1 2 : Rat) = 1 / 2 := by
  rw [Rat.mkRat_eq_div]; norm_num

theorem printedDecimal_eq_divInt (k : Nat) (x : Rat) (n : Int)
    (h1 : (n : Rat) ≤ x * 10 ^ k + 1 / 2) (h2 : x * 10 ^ k + 1 / 2 < n + 1) :
    printedDecimal k x = Rat.divInt n (((10 : Nat) ^ k : Nat) : Int) := by
  unfold printedDecimal
  rw [pow10_eq, mkRat_half_eq, ratFloor_eq_of_bounds _ n h1 h2]

theorem printedDecimal_self (k : Nat) (n : Int) (x : Rat)
    (h : x = Rat.divInt n (((10 : Nat) ^ k : Nat) : Int)) : printedDecimal k x = x := by
  have hpow : ((10 : Rat) ^ k) ≠ 0 := by positivity
  have hx : x * 10 ^ k = (n : Rat) := by
    rw [h, Rat.divInt_eq_div]
    push_cast
    field_simp
  rw [printedDecimal_eq_divInt k x n (by rw [hx]; norm_num) (by rw [hx]; norm_num), ← h]

theorem printedDecimal3_self (x : Rat) (n : Int) (h : x = Rat.divInt n 1000) :
    printedDecimal 3 x = x := by
  refine printedDecimal_self 3 n x ?_
  rw [h]
  norm_num

theorem printedDecimal6_self (x : Rat) (n : Int) (h : x = Rat.divInt n 1000000) :
    printedDecimal 6 x = x := by
  refine printedDecimal_self 6 n x ?_
  rw [h]
  norm_num

theorem printedDecimal3_one : printedDecimal 3 (1 : Rat) = 1 :=
  printedDecimal3_self 1 1000 (by rw [Rat.divInt_eq_div]; norm_num)

theorem printedDecimal6_one : printedDecimal 6 (1 : Rat) = 1 :=
  printedDecimal6_self 1 1000000 (by rw [Rat.divInt_eq_div]; norm_num)

theorem printedDecimal3_smallValue : printedDecimal 3 (mkRat 1 5000) = 0 := by
  have hval : (mkRat 1 5000 : Rat) = 1 / 5000 := by rw [Rat.mkRat_eq_div]; norm_num
  rw [printedDecimal_eq_divInt 3 _ 0 (by rw [hval]; norm_num) (by rw [hval]; norm_num)]
  decide

theorem tryParse_spawnTypeToString (t : EInteractiveObjectSpawnType) :
    TryParseSpawnType (SpawnTypeToString t) = some t := by
  cases t <;> decide

theorem colorToString_self (c : FLinearColor)
    (hr : ∃ n : Int, c.R = Rat.divInt n 1000000) (hg : ∃ n : Int, c.G = Rat.divInt n 1000000)
    (hb : ∃ n : Int, c.B = Rat.divInt n 1000000) (ha : ∃ n : Int, c.A = Rat.divInt n 1000000) :
    FLinearColorToStringValue c = c := by
  obtain ⟨nr, hr⟩ := hr
  obtain ⟨ng, hg⟩ := hg
  obtain ⟨nb, hb⟩ := hb
  obtain ⟨na, ha⟩ := ha
  unfold FLinearColorToStringValue
  rw [printedDecimal6_self _ _ hr, printedDecimal6_self _ _ hg, printedDecimal6_self _ _ hb,
    printedDecimal6_self _ _ ha]

theorem vectorToString_self (v : FVector)
    (hx : ∃ n : Int, v.X = Rat.divInt n 1000) (hy : ∃ n : Int, v.Y = Rat.divInt n 1000)
    (hz : ∃ n : Int, v.Z = Rat.divInt n 1000) :
    FVectorToStringValue v = v := by
  obtain ⟨nx, hx⟩ := hx
  obtain ⟨ny, hy⟩ := hy
  obtain ⟨nz, hz⟩ := hz
  unfold FVectorToStringValue
  rw [printedDecimal3_self _ _ hx, printedDecimal3_self _ _ hy, printedDecimal3_self _ _ hz]

end UInteractiveObjectSettings

/-- Counterexample to C4 as stated: the valid settings value with default
scale `(0.0002, 1, 1)` does not survive a save/load round trip, because
`FVector::ToString` prints only three fractional digits, so the saved scale
string denotes `(0, 1, 1)`, which fails validation on load and is replaced
by the safe defaults. -/
theorem c4_save_load_roundtrip_counterexample :
    FInteractiveObjectRuntimeSettings.IsValid ⟨.Cube, .White, ⟨mkRat 1 5000, 1, 1⟩⟩ = true ∧
    UInteractiveObjectSettings.LoadFromConfig
        ⟨UInteractiveObjectSettings.SaveToConfig ⟨.Cube, .White, ⟨mkRat 1 5000, 1, 1⟩⟩,
          ConfigFile.empty⟩ ≠
      ⟨.Cube, .White, ⟨mkRat 1 5000, 1, 1⟩⟩ := by
  constructor
  · decide
  · have hsave : UInteractiveObjectSettings.SaveToConfig ⟨.Cube, .White, ⟨mkRat 1 5000, 1, 1⟩⟩ =
        ⟨some (SpawnTypeToString .Cube), .val .White, .val ⟨0, 1, 1⟩⟩ := by
      unfold UInteractiveObjectSettings.SaveToConfig
      rw [show UInteractiveObjectSettings.FVectorToStringValue ⟨mkRat 1 5000, 1, 1⟩ =
          ⟨0, 1, 1⟩ from ?_, show UInteractiveObjectSettings.FLinearColorToStringValue .White =
          .White from ?_]
      · simp [UInteractiveObjectSettings.FLinearColorToStringValue, FLinearColor.White,
          UInteractiveObjectSettings.printedDecimal6_one]
      · simp [UInteractiveObjectSettings.FVectorToStringValue,
          UInteractiveObjectSettings.printedDecimal3_smallValue,
          UInteractiveObjectSettings.printedDecimal3_one]
    rw [hsave]
    decide

/-- C4 amended: the save/load round trip restores the settings exactly for
every valid settings value whose scale components are integer multiples of
`0.001` (the precision `FVector::ToString` prints) and whose color channels
are integer multiples of `0.000001` (the precision `FLinearColor::ToString`
prints). -/
theorem c4_save_load_roundtrip_amended (s : FInteractiveObjectRuntimeSettings)
    (hval : s.IsValid = true)
    (hx : ∃ n : Int, s.DefaultScale.X = Rat.divInt n 1000)
    (hy : ∃ n : Int, s.DefaultScale.Y = Rat.divInt n 1000)
    (hz : ∃ n : Int, s.DefaultScale.Z = Rat.divInt n 1000)
    (hr : ∃ n : Int, s.DefaultColor.R = Rat.divInt n 1000000)
    (hg : ∃ n : Int, s.DefaultColor.G = Rat.divInt n 1000000)
    (hb : ∃ n : Int, s.DefaultColor.B = Rat.divInt n 1000000)
    (ha : ∃ n : Int, s.DefaultColor.A = Rat.divInt n 1000000) :
    UInteractiveObjectSettings.LoadFromConfig
      ⟨UInteractiveObjectSettings.SaveToConfig s, ConfigFile.empty⟩ = s := by
  obtain ⟨st, cl, v⟩ := s
  have hsave : UInteractiveObjectSettings.SaveToConfig ⟨st, cl, v⟩ =
      ⟨some (SpawnTypeToString st), .val cl, .val v⟩ := by
    unfold UInteractiveObjectSettings.SaveToConfig
    rw [UInteractiveObjectSettings.vectorToString_self v hx hy hz,
      UInteractiveObjectSettings.colorToString_self cl hr hg hb ha]
  rw [hsave]
  have htemp : UInteractiveObjectSettings.LoadedTempSettings
      ⟨⟨some (SpawnTypeToString st), .val cl, .val v⟩, ConfigFile.empty⟩ = ⟨st, cl, v⟩ := by
    unfold UInteractiveObjectSettings.LoadedTempSettings
      UInteractiveObjectSettings.LoadSpawnTypeFromConfig
      UInteractiveObjectSettings.LoadColorFromConfig
      UInteractiveObjectSettings.LoadScaleFromConfig
      UInteractiveObjectSettings.spawnTypeKeyValue UInteractiveObjectSettings.colorKeyValue
      UInteractiveObjectSettings.scaleKeyValue lookupKey lookupKeyStr
    simp only [UInteractiveObjectSettings.tryParse_spawnTypeToString]
  unfold UInteractiveObjectSettings.LoadFromConfig
  rw [htemp, if_pos hval]

/-- Witness for the amended C4 at the concrete freshly constructed settings
value. -/
theorem c4_save_load_roundtrip_amended_witness :
    UInteractiveObjectSettings.LoadFromConfig
      ⟨UInteractiveObjectSettings.SaveToConfig FInteractiveObjectRuntimeSettings.construct,
        ConfigFile.empty⟩ = FInteractiveObjectRuntimeSettings.construct :=
  c4_save_load_roundtrip_amended FInteractiveObjectRuntimeSettings.construct (by decide)
    ⟨1000, by decide⟩ ⟨1000, by decide⟩ ⟨1000, by decide⟩
    ⟨1000000, by decide⟩ ⟨1000000, by decide⟩ ⟨1000000, by decide⟩ ⟨1000000, by decide⟩

/-- C10: for every input value `s`, `ApplyScale s` stores
`max s 0.01` as the current scale, so `GetCurrentScale` afterwards returns a
value at least `0.01`; requested scales below `0.01` are silently raised to
`0.01`. -/
theorem c10_apply_scale_clamps_to_min (s : Rat) (st : UInteractiveObjectComponent.State) :
    UInteractiveObjectComponent.GetCurrentScale (UInteractiveObjectComponent.ApplyScale s st) =
      max s (mkRat 1 100) ∧
    mkRat 1 100 ≤
      UInteractiveObjectComponent.GetCurrentScale (UInteractiveObjectComponent.ApplyScale s st) ∧
    (s < mkRat 1 100 →
      UInteractiveObjectComponent.GetCurrentScale (UInteractiveObjectComponent.ApplyScale s st) =
        mkRat 1 100) := by
  have hmax : FMathMax s (mkRat 1 100) = max s (mkRat 1 100) := by
    unfold FMathMax
    split_ifs with h
    · exact (max_eq_left h.le).symm
    · exact (max_eq_right (le_of_not_lt h)).symm
  refine ⟨hmax, ?_, ?_⟩
  · rw [show UInteractiveObjectComponent.GetCurrentScale
      (UInteractiveObjectComponent.ApplyScale s st) = FMathMax s (mkRat 1 100) from rfl, hmax]
    exact le_max_right s (mkRat 1 100)
  · intro h
    rw [show UInteractiveObjectComponent.GetCurrentScale
      (UInteractiveObjectComponent.ApplyScale s st) = FMathMax s (mkRat 1 100) from rfl, hmax]
    exact max_eq_right h.le

/-- Witness for C10 at the concrete below-minimum input 0. -/
theorem c10_apply_scale_clamps_to_min_witness :
    UInteractiveObjectComponent.GetCurrentScale
      (UInteractiveObjectComponent.ApplyScale 0 UInteractiveObjectComponent.construct) =
      mkRat 1 100 :=
  (c10_apply_scale_clamps_to_min 0 UInteractiveObjectComponent.construct).2.2 (by decide)

/-! ## Theorems: registry subsystem -/

namespace UInteractiveObjectManagerSubsystem

theorem filter_live_eq (s : ManagerState)
    (hlive : ∀ r ∈ s.RegisteredObjects, s.destroyed.contains r.Component = false) :
    (s.RegisteredObjects.filter fun r => compIsValid s r.Component) = s.RegisteredObjects := by
  apply List.filter_eq_self.mpr
  intro r hr
  unfold compIsValid
  rw [hlive r hr]
  rfl

theorem listItems_eq (s : ManagerState)
    (hlive : ∀ r ∈ s.RegisteredObjects, s.destroyed.contains r.Component = false) :
    listItems s = registeredIds s := by
  unfold listItems registeredIds
  rw [filter_live_eq s hlive]

theorem weakGet_live (s : ManagerState) (c : Nat) (h : s.destroyed.contains c = false) :
    weakGet s (some c) = some c := by
  show (if (! s.destroyed.contains c) = true then some c else none) = some c
  rw [h]
  rfl

theorem cleanup_eq (s : ManagerState) (h : Inv s) : CleanupInvalidRecords s = (s, []) := by
  unfold CleanupInvalidRecords
  rw [filter_live_eq s h.live]
  show InvalidateSelectionIfNoLongerValid s = (s, [])
  unfold InvalidateSelectionIfNoLongerValid
  rcases h.sel with ⟨h1, _⟩ | ⟨r, hr, hid, hobj⟩
  · rw [if_pos h1]
  · by_cases hsel : s.SelectedObjectId = INDEX_NONE
    · rw [if_pos hsel]
    · rw [if_neg hsel]
      have hvalid : weakGet s s.SelectedObject = some r.Component := by
        rw [hobj]
        exact weakGet_live s r.Component (h.live r hr)
      have hfound : (s.RegisteredObjects.any fun x =>
          decide (x.ObjectId = s.SelectedObjectId) && decide (some x.Component = s.SelectedObject)) =
          true := by
        rw [List.any_eq_true]
        refine ⟨r, hr, ?_⟩
        rw [hid, hobj]
        simp
      simp only [hvalid, Option.isNone_some, Bool.false_eq_true, if_false, hfound, if_true]

theorem getList_eq (s : ManagerState) (h : Inv s) : GetInteractiveObjectsList s = (s, []) :=
  cleanup_eq s h

theorem broadcastList_eq (s : ManagerState) (h : Inv s) :
    BroadcastObjectsListChanged s = (s, [.listChanged (registeredIds s)]) := by
  unfold BroadcastObjectsListChanged
  simp only [getList_eq s h, listItems_eq s h.live, List.nil_append]

theorem removeFirstBy_none (p : FInteractiveObjectRecord → Bool)
    (l : List FInteractiveObjectRecord) (h : (removeFirstBy p l).2 = none) :
    (removeFirstBy p l).1 = l ∧ ∀ r ∈ l, p r = false := by
  induction l with
  | nil => exact ⟨rfl, by simp⟩
  | cons r rest ih =>
    unfold removeFirstBy at h ⊢
    by_cases hp : p r = true
    · rw [if_pos hp] at h
      cases h
    · rw [if_neg hp] at h ⊢
      simp only at h ⊢
      obtain ⟨h1, h2⟩ := ih h
      refine ⟨by rw [h1], ?_⟩
      intro x hx
      rcases List.mem_cons.mp hx with rfl | hx
      · exact Bool.eq_false_iff.mpr hp
      · exact h2 x hx

theorem removeFirstBy_all_false (p : FInteractiveObjectRecord → Bool)
    (l : List FInteractiveObjectRecord) (h : ∀ r ∈ l, p r = false) :
    removeFirstBy p l = (l, none) := by
  induction l with
  | nil => rfl
  | cons r rest ih =>
    unfold removeFirstBy
    rw [if_neg (by rw [h r (by simp)]; simp)]
    rw [ih fun x hx => h x (by simp [hx])]

theorem removeFirstBy_some (p : FInteractiveObjectRecord → Bool)
    (l : List FInteractiveObjectRecord) (r : FInteractiveObjectRecord)
    (h : (removeFirstBy p l).2 = some r) :
    ∃ l1 l2, l = l1 ++ r :: l2 ∧ (removeFirstBy p l).1 = l1 ++ l2 ∧ p r = true ∧
      ∀ x ∈ l1, p x = false := by
  induction l with
  | nil => cases h
  | cons a rest ih =>
    unfold removeFirstBy at h ⊢
    by_cases hp : p a = true
    · rw [if_pos hp] at h ⊢
      cases h
      exact ⟨[], rest, rfl, rfl, hp, by simp⟩
    · rw [if_neg hp] at h ⊢
      simp only at h ⊢
      obtain ⟨l1, l2, h1, h2, h3, h4⟩ := ih h
      refine ⟨a :: l1, l2, by rw [h1]; rfl, by rw [h2, List.cons_append], h3, ?_⟩
      intro x hx
      rcases List.mem_cons.mp hx with rfl | hx
      · exact Bool.eq_false_iff.mpr hp
      · exact h4 x hx

theorem removeFirstBy_congr (p q : FInteractiveObjectRecord → Bool)
    (l : List FInteractiveObjectRecord) (h : ∀ r ∈ l, p r = q r) :
    removeFirstBy p l = removeFirstBy q l := by
  induction l with
  | nil => rfl
  | cons a rest ih =>
    unfold removeFirstBy
    rw [h a (by simp), ih fun x hx => h x (by simp [hx])]

theorem find?_congr_mem (p q : FInteractiveObjectRecord → Bool)
    (l : List FInteractiveObjectRecord) (h : ∀ r ∈ l, p r = q r) :
    l.find? p = l.find? q := by
  induction l with
  | nil => rfl
  | cons a rest ih =>
    rw [List.find?_cons, List.find?_cons, h a (by simp),
      ih fun x hx => h x (by simp [hx])]

theorem findByComp_eq (s : ManagerState) (c : Nat)
    (hlive : ∀ r ∈ s.RegisteredObjects, s.destroyed.contains r.Component = false) :
    FindRecordByComponent s c =
      s.RegisteredObjects.find? fun r => decide (r.Component = c) := by
  unfold FindRecordByComponent
  apply find?_congr_mem
  intro r hr
  rw [weakGet_live s r.Component (hlive r hr)]
  simp

theorem findByComp_none (s : ManagerState) (c : Nat) (h : Inv s) :
    FindRecordByComponent s c = none ↔ ∀ r ∈ s.RegisteredObjects, r.Component ≠ c := by
  rw [findByComp_eq s c h.live, List.find?_eq_none]
  simp

theorem findById_eq (s : ManagerState) (i : Int)
    (hlive : ∀ r ∈ s.RegisteredObjects, s.destroyed.contains r.Component = false) :
    FindRecordById s i = s.RegisteredObjects.find? fun r => decide (r.ObjectId = i) := by
  unfold FindRecordById
  apply find?_congr_mem
  intro r hr
  unfold compIsValid
  rw [hlive r hr]
  simp

theorem inv_clear (s : ManagerState) (h : Inv s) : Inv (clearSelectionFields s) := by
  refine ⟨h.ids_sorted, h.ids_lt, h.live, h.comps_nodup, Or.inl ⟨rfl, rfl⟩⟩

theorem inv_select (s : ManagerState) (h : Inv s) (r : FInteractiveObjectRecord)
    (hr : r ∈ s.RegisteredObjects) :
    Inv { s with SelectedObjectId := r.ObjectId, SelectedObject := some r.Component } := by
  refine ⟨h.ids_sorted, h.ids_lt, h.live, h.comps_nodup, Or.inr ⟨r, hr, rfl, rfl⟩⟩

theorem inv_append (s : ManagerState) (c : Nat) (h : Inv s)
    (hc : s.destroyed.contains c = false)
    (hnot : ∀ r ∈ s.RegisteredObjects, r.Component ≠ c) :
    Inv { s with
      NextObjectId := s.NextObjectId + 1
      RegisteredObjects := s.RegisteredObjects ++ [⟨s.NextObjectId, c⟩] } := by
  refine ⟨?_, ?_, ?_, ?_, ?_⟩
  · show ((s.RegisteredObjects ++ [({ ObjectId := s.NextObjectId, Component := c } :
      FInteractiveObjectRecord)]).map fun r => r.ObjectId).Pairwise (· < ·)
    rw [List.map_append, List.pairwise_append]
    refine ⟨h.ids_sorted, by simp, ?_⟩
    intro a ha b hb
    simp only [List.map_cons, List.map_nil, List.mem_singleton] at hb
    rw [hb]
    obtain ⟨r, hr, hrid⟩ := List.mem_map.mp ha
    rw [← hrid]
    exact h.ids_lt r hr
  · intro r hr
    rcases List.mem_append.mp hr with hr | hr
    · exact lt_trans (h.ids_lt r hr) (by show s.NextObjectId < s.NextObjectId + 1; omega)
    · rw [List.mem_singleton.mp hr]
      show s.NextObjectId < s.NextObjectId + 1
      omega
  · intro r hr
    rcases List.mem_append.mp hr with hr | hr
    · exact h.live r hr
    · rw [List.mem_singleton.mp hr]
      exact hc
  · show ((s.RegisteredObjects ++ [({ ObjectId := s.NextObjectId, Component := c } :
      FInteractiveObjectRecord)]).map fun r => r.Component).Nodup
    rw [List.map_append, List.nodup_append]
    refine ⟨h.comps_nodup, by simp, ?_⟩
    intro x hx
    obtain ⟨r, hr, hrc⟩ := List.mem_map.mp hx
    simp only [List.map_cons, List.map_nil, List.mem_singleton]
    intro hxc
    exact hnot r hr (by rw [hrc, hxc])
  · rcases h.sel with ⟨h1, h2⟩ | ⟨r, hr, hid, hobj⟩
    · exact Or.inl ⟨h1, h2⟩
    · exact Or.inr ⟨r, List.mem_append.mpr (Or.inl hr), hid, hobj⟩

theorem inv_remove (s : ManagerState) (l1 l2 : List FInteractiveObjectRecord)
    (r0 : FInteractiveObjectRecord) (h : Inv s)
    (hsplit : s.RegisteredObjects = l1 ++ r0 :: l2) :
    Inv (clearSelectionFields { s with RegisteredObjects := l1 ++ l2 }) := by
  have hsub : (l1 ++ l2).Sublist s.RegisteredObjects := by
    rw [hsplit]
    exact List.Sublist.append_left (List.sublist_cons_self r0 l2) l1
  refine ⟨?_, ?_, ?_, ?_, Or.inl ⟨rfl, rfl⟩⟩
  · show ((l1 ++ l2).map fun r => r.ObjectId).Pairwise (· < ·)
    exact List.Pairwise.sublist (List.Sublist.map (fun r => r.ObjectId) hsub) h.ids_sorted
  · intro r hr
    exact h.ids_lt r (hsub.subset hr)
  · intro r hr
    exact h.live r (hsub.subset hr)
  · show ((l1 ++ l2).map fun r => r.Component).Nodup
    exact List.Nodup.sublist (List.Sublist.map (fun r => r.Component) hsub) h.comps_nodup

theorem inv_remove_keep (s : ManagerState) (l1 l2 : List FInteractiveObjectRecord)
    (r0 : FInteractiveObjectRecord) (h : Inv s)
    (hsplit : s.RegisteredObjects = l1 ++ r0 :: l2)
    (hsel : s.SelectedObjectId ≠ r0.ObjectId) :
    Inv { s with RegisteredObjects := l1 ++ l2 } := by
  have hsub : (l1 ++ l2).Sublist s.RegisteredObjects := by
    rw [hsplit]
    exact List.Sublist.append_left (List.sublist_cons_self r0 l2) l1
  refine ⟨?_, ?_, ?_, ?_, ?_⟩
  · show ((l1 ++ l2).map fun r => r.ObjectId).Pairwise (· < ·)
    exact List.Pairwise.sublist (List.Sublist.map (fun r => r.ObjectId) hsub) h.ids_sorted
  · intro r hr
    exact h.ids_lt r (hsub.subset hr)
  · intro r hr
    exact h.live r (hsub.subset hr)
  · show ((l1 ++ l2).map fun r => r.Component).Nodup
    exact List.Nodup.sublist (List.Sublist.map (fun r => r.Component) hsub) h.comps_nodup
  · rcases h.sel with ⟨h1, h2⟩ | ⟨r, hr, hid, hobj⟩
    · exact Or.inl ⟨h1, h2⟩
    · refine Or.inr ⟨r, ?_, hid, hobj⟩
      rw [hsplit] at hr
      rcases List.mem_append.mp hr with hr | hr
      · exact List.mem_append.mpr (Or.inl hr)
      · rcases List.mem_cons.mp hr with hreq | hr
        · exact absurd (hreq ▸ hid) (fun hh => hsel hh.symm)
        · exact List.mem_append.mpr (Or.inr hr)

theorem register_none_spec (s : ManagerState) :
    RegisterInteractiveObject none s = (s, []) := rfl

theorem register_dup_spec (s : ManagerState) (c : Nat) (h : Inv s)
    (r : FInteractiveObjectRecord) (hf : FindRecordByComponent s c = some r) :
    RegisterInteractiveObject (some c) s = (s, []) := by
  unfold RegisterInteractiveObject
  rw [cleanup_eq s h]
  simp only [hf]

theorem register_new_spec (s : ManagerState) (c : Nat) (h : Inv s)
    (hc : s.destroyed.contains c = false)
    (hf : FindRecordByComponent s c = none) :
    RegisterInteractiveObject (some c) s =
      (if s.SelectedObjectId = INDEX_NONE then
        ({ s with
            NextObjectId := s.NextObjectId + 1
            RegisteredObjects := s.RegisteredObjects ++ [⟨s.NextObjectId, c⟩]
            SelectedObjectId := s.NextObjectId
            SelectedObject := some c },
          [BEvent.selectionChanged s.NextObjectId,
            BEvent.listChanged (registeredIds s ++ [s.NextObjectId])])
      else
        ({ s with
            NextObjectId := s.NextObjectId + 1
            RegisteredObjects := s.RegisteredObjects ++ [⟨s.NextObjectId, c⟩] },
          [BEvent.listChanged (registeredIds s ++ [s.NextObjectId])])) := by
  have hnot : ∀ r ∈ s.RegisteredObjects, r.Component ≠ c := (findByComp_none s c h).mp hf
  have hinv2 := inv_append s c h hc hnot
  have hids : registeredIds { s with
      NextObjectId := s.NextObjectId + 1
      RegisteredObjects := s.RegisteredObjects ++ [⟨s.NextObjectId, c⟩] } =
      registeredIds s ++ [s.NextObjectId] := by
    unfold registeredIds
    simp
  unfold RegisterInteractiveObject
  rw [cleanup_eq s h]
  simp only [hf]
  by_cases hsel : s.SelectedObjectId = INDEX_NONE
  · have hinv3 := inv_select _ hinv2 ⟨s.NextObjectId, c⟩ (List.mem_append.mpr (Or.inr (by simp)))
    rw [if_pos hsel, if_pos hsel, broadcastList_eq _ hinv3]
    simp [registeredIds]
  · rw [if_neg hsel, if_neg hsel, broadcastList_eq _ hinv2]
    simp [registeredIds]

theorem unregister_none_spec (s : ManagerState) :
    UnregisterInteractiveObject none s = (s, []) := rfl

theorem unregister_pred_congr (s : ManagerState) (c : Nat)
    (hlive : ∀ r ∈ s.RegisteredObjects, s.destroyed.contains r.Component = false) :
    removeFirstBy (fun r => decide (weakGet s (some r.Component) = some c))
        s.RegisteredObjects =
      removeFirstBy (fun r => decide (r.Component = c)) s.RegisteredObjects := by
  apply removeFirstBy_congr
  intro r hr
  rw [weakGet_live s r.Component (hlive r hr)]
  simp

theorem unregister_notfound_spec (s : ManagerState) (c : Nat) (h : Inv s)
    (hno : ∀ r ∈ s.RegisteredObjects, r.Component ≠ c) :
    UnregisterInteractiveObject (some c) s = (s, []) := by
  unfold UnregisterInteractiveObject
  rw [cleanup_eq s h]
  simp only [unregister_pred_congr s c h.live,
    removeFirstBy_all_false (fun r => decide (r.Component = c)) s.RegisteredObjects
      (fun r hr => by simp [hno r hr])]

theorem unregister_found_spec (s : ManagerState) (c : Nat) (h : Inv s)
    (l1 l2 : List FInteractiveObjectRecord) (r0 : FInteractiveObjectRecord)
    (hsplit : s.RegisteredObjects = l1 ++ r0 :: l2)
    (hrem : removeFirstBy (fun r => decide (r.Component = c)) s.RegisteredObjects =
      (l1 ++ l2, some r0)) :
    UnregisterInteractiveObject (some c) s =
      (if s.SelectedObjectId = r0.ObjectId then
        (clearSelectionFields { s with RegisteredObjects := l1 ++ l2 },
          [BEvent.selectionChanged INDEX_NONE,
            BEvent.listChanged ((l1 ++ l2).map fun r => r.ObjectId)])
      else
        ({ s with RegisteredObjects := l1 ++ l2 },
          [BEvent.listChanged ((l1 ++ l2).map fun r => r.ObjectId)])) := by
  unfold UnregisterInteractiveObject
  rw [cleanup_eq s h]
  simp only [unregister_pred_congr s c h.live, hrem]
  by_cases hsel : s.SelectedObjectId = r0.ObjectId
  · have hinv2 := inv_remove s l1 l2 r0 h hsplit
    rw [if_pos hsel, if_pos hsel, broadcastList_eq _ hinv2]
    simp [registeredIds, clearSelectionFields]
  · have hinv2 := inv_remove_keep s l1 l2 r0 h hsplit hsel
    rw [if_neg hsel, if_neg hsel, broadcastList_eq _ hinv2]
    simp [registeredIds]

theorem selectById_same_spec (s : ManagerState) (i : Int) (heq : i = s.SelectedObjectId) :
    SelectObjectById i s = (s, [], false) := by
  unfold SelectObjectById
  rw [if_pos heq]

theorem selectById_notfound_spec (s : ManagerState) (i : Int) (h : Inv s)
    (hne : i ≠ s.SelectedObjectId)
    (hf : s.RegisteredObjects.find? (fun r => decide (r.ObjectId = i)) = none) :
    SelectObjectById i s = (s, [], false) := by
  unfold SelectObjectById
  rw [if_neg hne, cleanup_eq s h]
  simp only [findById_eq s i h.live, hf]

theorem selectById_found_spec (s : ManagerState) (i : Int) (h : Inv s)
    (hne : i ≠ s.SelectedObjectId) (r : FInteractiveObjectRecord)
    (hf : s.RegisteredObjects.find? (fun x => decide (x.ObjectId = i)) = some r) :
    SelectObjectById i s =
      ({ s with SelectedObjectId := r.ObjectId, SelectedObject := some r.Component },
        [.selectionChanged r.ObjectId], true) := by
  unfold SelectObjectById
  rw [if_neg hne, cleanup_eq s h]
  simp only [findById_eq s i h.live, hf, List.nil_append]

theorem selectByIndex_spec (s : ManagerState) (idx : Int) (h : Inv s) :
    SelectObjectByIndex idx s = (s, [], false) ∨
    ∃ r ∈ s.RegisteredObjects, r.ObjectId ≠ s.SelectedObjectId ∧
      SelectObjectByIndex idx s =
        ({ s with SelectedObjectId := r.ObjectId, SelectedObject := some r.Component },
          [.selectionChanged r.ObjectId], true) := by
  unfold SelectObjectByIndex
  rw [cleanup_eq s h]
  by_cases h0 : idx < 0
  · left
    rw [if_pos h0]
  · rw [if_neg h0]
    cases hg : s.RegisteredObjects.get? idx.toNat with
    | none =>
      left
      simp only [hg]
    | some r =>
      have hmem : r ∈ s.RegisteredObjects := List.get?_mem hg
      have hvalid : compIsValid s r.Component = true := by
        unfold compIsValid
        rw [h.live r hmem]
        rfl
      simp only [hg, hvalid, Bool.not_true, Bool.false_eq_true, if_false]
      by_cases hid : r.ObjectId = s.SelectedObjectId
      · left
        rw [if_pos hid]
      · right
        refine ⟨r, hmem, hid, ?_⟩
        rw [if_neg hid]
        simp

theorem clear_spec (s : ManagerState) :
    ClearSelection s = (s, [], false) ∨
      ClearSelection s = (clearSelectionFields s, [.selectionChanged INDEX_NONE], true) := by
  unfold ClearSelection
  split
  · left
    rfl
  · right
    rfl

theorem setColor_spec (col : FLinearColor) (s : ManagerState) :
    (SetSelectedObjectColor col s).1 = s ∧ (SetSelectedObjectColor col s).2.1 = [] := by
  unfold SetSelectedObjectColor
  split <;> exact ⟨rfl, rfl⟩

theorem setScale_spec (x : Rat) (s : ManagerState) :
    (SetSelectedObjectUniformScale x s).1 = s ∧
      (SetSelectedObjectUniformScale x s).2.1 = [] := by
  unfold SetSelectedObjectUniformScale
  split <;> exact ⟨rfl, rfl⟩

theorem weakGet_some_inv (s : ManagerState) (w : Option Nat) (c : Nat)
    (h : weakGet s w = some c) : w = some c ∧ s.destroyed.contains c = false := by
  cases w with
  | none => cases h
  | some d =>
    have h2 : (if compIsValid s d = true then some d else none) = some c := h
    by_cases hv : compIsValid s d = true
    · rw [if_pos hv] at h2
      injection h2 with hdc
      subst hdc
      refine ⟨rfl, ?_⟩
      unfold compIsValid at hv
      cases hcon : s.destroyed.contains d
      · rfl
      · rw [hcon] at hv
        cases hv
    · rw [if_neg hv] at h2
      cases h2

theorem nodup_ids (s : ManagerState) (h : Inv s) : (registeredIds s).Nodup :=
  h.ids_sorted.imp fun hlt => ne_of_lt hlt

theorem record_unique_by_id (s : ManagerState) (h : Inv s) (a b : FInteractiveObjectRecord)
    (ha : a ∈ s.RegisteredObjects) (hb : b ∈ s.RegisteredObjects)
    (heq : a.ObjectId = b.ObjectId) : a = b :=
  List.inj_on_of_nodup_map (nodup_ids s h) ha hb heq

theorem comps_ne_of_split (s : ManagerState) (h : Inv s)
    (l1 l2 : List FInteractiveObjectRecord) (r0 : FInteractiveObjectRecord)
    (hsplit : s.RegisteredObjects = l1 ++ r0 :: l2) :
    ∀ r ∈ l1 ++ l2, r.Component ≠ r0.Component := by
  have hnd := h.comps_nodup
  rw [hsplit, List.map_append, List.map_cons, List.nodup_append] at hnd
  obtain ⟨hnd1, hnd2, hdisj⟩ := hnd
  intro r hr hc
  rcases List.mem_append.mp hr with hr | hr
  · exact hdisj (List.mem_map.mpr ⟨r, hr, hc⟩) (by simp)
  · exact (List.nodup_cons.mp hnd2).1 (List.mem_map.mpr ⟨r, hr, hc⟩)

theorem delete_setup (s : ManagerState) (c : Nat) (h : Inv s)
    (hg : weakGet s s.SelectedObject = some c) :
    ∃ l1 l2 r0, s.RegisteredObjects = l1 ++ r0 :: l2 ∧
      r0.ObjectId = s.SelectedObjectId ∧ r0.Component = c ∧
      removeFirstBy (fun r => decide (r.ObjectId = s.SelectedObjectId)) s.RegisteredObjects =
        (l1 ++ l2, some r0) := by
  obtain ⟨hw, _⟩ := weakGet_some_inv s _ c hg
  rcases h.sel with ⟨_, h2⟩ | ⟨rs, hrs, hid, hobj⟩
  · rw [h2] at hw
    cases hw
  · have hcomp : rs.Component = c := by
      rw [hobj] at hw
      exact Option.some.inj hw
    cases hrem2 : (removeFirstBy (fun r => decide (r.ObjectId = s.SelectedObjectId))
        s.RegisteredObjects).2 with
    | none =>
      obtain ⟨_, hall⟩ := removeFirstBy_none _ _ hrem2
      have := hall rs hrs
      simp [hid] at this
    | some r0 =>
      obtain ⟨l1, l2, hsplit, hl1, hp, _⟩ := removeFirstBy_some _ _ _ hrem2
      have hr0id : r0.ObjectId = s.SelectedObjectId := by simpa using hp
      have hr0mem : r0 ∈ s.RegisteredObjects := by
        rw [hsplit]
        exact List.mem_append.mpr (Or.inr (by simp))
      have hr0eq : r0 = rs := record_unique_by_id s h r0 rs hr0mem hrs (by rw [hr0id, hid])
      refine ⟨l1, l2, r0, hsplit, hr0id, by rw [hr0eq]; exact hcomp, ?_⟩
      have hpair : removeFirstBy (fun r => decide (r.ObjectId = s.SelectedObjectId))
          s.RegisteredObjects =
          ((removeFirstBy (fun r => decide (r.ObjectId = s.SelectedObjectId))
            s.RegisteredObjects).1,
           (removeFirstBy (fun r => decide (r.ObjectId = s.SelectedObjectId))
            s.RegisteredObjects).2) := rfl
      rw [hpair, hl1, hrem2]

theorem inv_delete_mid (s : ManagerState) (h : Inv s) (c : Nat)
    (l1 l2 : List FInteractiveObjectRecord) (r0 : FInteractiveObjectRecord)
    (hsplit : s.RegisteredObjects = l1 ++ r0 :: l2) (hcomp : r0.Component = c) :
    Inv { s with
      RegisteredObjects := l1 ++ l2
      SelectedObjectId := INDEX_NONE
      SelectedObject := none
      destroyed := c :: s.destroyed } := by
  have hsub : (l1 ++ l2).Sublist s.RegisteredObjects := by
    rw [hsplit]
    exact List.Sublist.append_left (List.sublist_cons_self r0 l2) l1
  refine ⟨?_, ?_, ?_, ?_, Or.inl ⟨rfl, rfl⟩⟩
  · show ((l1 ++ l2).map fun r => r.ObjectId).Pairwise (· < ·)
    exact List.Pairwise.sublist (List.Sublist.map (fun r => r.ObjectId) hsub) h.ids_sorted
  · intro r hr
    exact h.ids_lt r (hsub.subset hr)
  · intro r hr
    show (c :: s.destroyed).contains r.Component = false
    have hne : r.Component ≠ c := by
      rw [← hcomp]
      exact comps_ne_of_split s h l1 l2 r0 hsplit r hr
    have hold := h.live r (hsub.subset hr)
    simp only [List.contains_cons, Bool.or_eq_false_iff]
    refine ⟨by simp [hne], hold⟩
  · show ((l1 ++ l2).map fun r => r.Component).Nodup
    exact List.Nodup.sublist (List.Sublist.map (fun r => r.Component) hsub) h.comps_nodup

theorem delete_guard_spec (s : ManagerState) (hg : weakGet s s.SelectedObject = none) :
    DeleteSelectedObject s = (s, [], false) := by
  unfold DeleteSelectedObject
  rw [hg]

theorem delete_found_spec (s : ManagerState) (c : Nat)
    (l1 l2 : List FInteractiveObjectRecord) (r0 : FInteractiveObjectRecord) (h : Inv s)
    (hg : weakGet s s.SelectedObject = some c)
    (hsplit : s.RegisteredObjects = l1 ++ r0 :: l2) (hcomp : r0.Component = c)
    (hrem : removeFirstBy (fun r => decide (r.ObjectId = s.SelectedObjectId))
      s.RegisteredObjects = (l1 ++ l2, some r0)) :
    DeleteSelectedObject s =
      (match (l1 ++ l2).head? with
      | some f =>
        ({ s with
            RegisteredObjects := l1 ++ l2
            SelectedObjectId := f.ObjectId
            SelectedObject := some f.Component
            destroyed := c :: s.destroyed },
          [BEvent.listChanged ((l1 ++ l2).map fun r => r.ObjectId),
            BEvent.selectionChanged f.ObjectId], true)
      | none =>
        ({ s with
            RegisteredObjects := l1 ++ l2
            SelectedObjectId := INDEX_NONE
            SelectedObject := none
            destroyed := c :: s.destroyed },
          [BEvent.listChanged ((l1 ++ l2).map fun r => r.ObjectId),
            BEvent.selectionChanged INDEX_NONE], true)) := by
  have hmid := inv_delete_mid s h c l1 l2 r0 hsplit hcomp
  have hno3 : ∀ r ∈ l1 ++ l2, r.Component ≠ c := by
    intro r hr
    rw [← hcomp]
    exact comps_ne_of_split s h l1 l2 r0 hsplit r hr
  unfold DeleteSelectedObject
  rw [hg]
  simp only [clearSelectionFields, hrem,
    unregister_notfound_spec _ c hmid (fun r hr => hno3 r hr)]
  cases hh : (l1 ++ l2).head? with
  | some f =>
    have hmemf : f ∈ l1 ++ l2 := List.mem_of_mem_head? (Option.mem_def.mpr hh)
    have hinv5 := inv_select _ hmid f hmemf
    simp only [hh]
    rw [broadcastList_eq _ hinv5]
    simp [registeredIds]
  | none =>
    simp only [hh]
    rw [broadcastList_eq _ hmid]
    simp [registeredIds]

theorem inv_construct : Inv construct := by
  refine ⟨?_, ?_, ?_, ?_, Or.inl ⟨rfl, rfl⟩⟩ <;> simp [construct, registeredIds]

theorem inv_step (o : ManagerOp) (s : ManagerState) (h : Inv s) (hok : RegOk o s) :
    Inv (step o s).1 := by
  cases o with
  | register c =>
    cases c with
    | none => exact h
    | some c =>
      show Inv (RegisterInteractiveObject (some c) s).1
      cases hf : FindRecordByComponent s c with
      | some r =>
        rw [register_dup_spec s c h r hf]
        exact h
      | none =>
        have hc : s.destroyed.contains c = false := hok
        rw [register_new_spec s c h hc hf]
        by_cases hsel : s.SelectedObjectId = INDEX_NONE
        · rw [if_pos hsel]
          exact inv_select _ (inv_append s c h hc ((findByComp_none s c h).mp hf))
            ⟨s.NextObjectId, c⟩ (List.mem_append.mpr (Or.inr (by simp)))
        · rw [if_neg hsel]
          exact inv_append s c h hc ((findByComp_none s c h).mp hf)
  | unregister c =>
    cases c with
    | none => exact h
    | some c =>
      show Inv (UnregisterInteractiveObject (some c) s).1
      cases hrem2 : (removeFirstBy (fun r => decide (r.Component = c)) s.RegisteredObjects).2 with
      | none =>
        obtain ⟨_, hall⟩ := removeFirstBy_none _ _ hrem2
        have hno : ∀ r ∈ s.RegisteredObjects, r.Component ≠ c := fun r hr => by
          have := hall r hr
          simpa using this
        rw [unregister_notfound_spec s c h hno]
        exact h
      | some r0 =>
        obtain ⟨l1, l2, hsplit, hl1, _, _⟩ := removeFirstBy_some _ _ _ hrem2
        have hrem : removeFirstBy (fun r => decide (r.Component = c)) s.RegisteredObjects =
            (l1 ++ l2, some r0) := by
          have hpair : removeFirstBy (fun r => decide (r.Component = c)) s.RegisteredObjects =
              ((removeFirstBy (fun r => decide (r.Component = c)) s.RegisteredObjects).1,
               (removeFirstBy (fun r => decide (r.Component = c)) s.RegisteredObjects).2) := rfl
          rw [hpair, hl1, hrem2]
        rw [unregister_found_spec s c h l1 l2 r0 hsplit hrem]
        by_cases hsel : s.SelectedObjectId = r0.ObjectId
        · rw [if_pos hsel]
          exact inv_remove s l1 l2 r0 h hsplit
        · rw [if_neg hsel]
          exact inv_remove_keep s l1 l2 r0 h hsplit hsel
  | selectById i =>
    show Inv (SelectObjectById i s).1
    by_cases heq : i = s.SelectedObjectId
    · rw [selectById_same_spec s i heq]
      exact h
    · cases hf : s.RegisteredObjects.find? (fun r => decide (r.ObjectId = i)) with
      | none =>
        rw [selectById_notfound_spec s i h heq hf]
        exact h
      | some r =>
        rw [selectById_found_spec s i h heq r hf]
        exact inv_select s h r (List.mem_of_find?_eq_some hf)
  | selectByIndex i =>
    show Inv (SelectObjectByIndex i s).1
    rcases selectByIndex_spec s i h with hspec | ⟨r, hmem, _, hspec⟩
    · rw [hspec]
      exact h
    · rw [hspec]
      exact inv_select s h r hmem
  | clearSelection =>
    show Inv (ClearSelection s).1
    rcases clear_spec s with hspec | hspec
    · rw [hspec]
      exact h
    · rw [hspec]
      exact inv_clear s h
  | setColor col =>
    show Inv (SetSelectedObjectColor col s).1
    rw [(setColor_spec col s).1]
    exact h
  | setScale x =>
    show Inv (SetSelectedObjectUniformScale x s).1
    rw [(setScale_spec x s).1]
    exact h
  | deleteSelected =>
    show Inv (DeleteSelectedObject s).1
    cases hg : weakGet s s.SelectedObject with
    | none =>
      rw [delete_guard_spec s hg]
      exact h
    | some c =>
      obtain ⟨l1, l2, r0, hsplit, hid, hcomp, hrem⟩ := delete_setup s c h hg
      rw [delete_found_spec s c l1 l2 r0 h hg hsplit hcomp hrem]
      cases hh : (l1 ++ l2).head? with
      | some f =>
        simp only [hh]
        exact inv_select _ (inv_delete_mid s h c l1 l2 r0 hsplit hcomp) f
          (List.mem_of_mem_head? (Option.mem_def.mpr hh))
      | none =>
        simp only [hh]
        exact inv_delete_mid s h c l1 l2 r0 hsplit hcomp
  | getList =>
    show Inv (GetInteractiveObjectsList s).1
    rw [getList_eq s h]
    exact h

theorem reach_inv (s : ManagerState) (h : ReachableM s) : Inv s := by
  induction h with
  | construct => exact inv_construct
  | step o hr hok ih => exact inv_step o _ ih hok

/-- C5: in every reachable registry state the `ObjectId`s of the registered
records are pairwise distinct and strictly increasing in registration order,
and registering a component that is already registered leaves the registry
completely unchanged: no new record and no new id. -/
theorem c5_registry_ids_strictly_increasing (s : ManagerState) (h : ReachableM s) :
    (registeredIds s).Pairwise (· < ·) ∧
    ∀ c : Nat, (∃ r ∈ s.RegisteredObjects, r.Component = c) →
      RegisterInteractiveObject (some c) s = (s, []) := by
  have hInv := reach_inv s h
  refine ⟨hInv.ids_sorted, ?_⟩
  rintro c ⟨r, hr, hc⟩
  cases hfe : FindRecordByComponent s c with
  | none => exact absurd ((findByComp_none s c hInv).mp hfe r hr hc) (by simp)
  | some r2 => exact register_dup_spec s c hInv r2 hfe

/-- Witness for C5 at the concrete state with components 5 and 7
registered. -/
theorem c5_registry_ids_strictly_increasing_witness :
    (registeredIds (step (.register (some 7)) (step (.register (some 5)) construct).1).1).Pairwise
        (· < ·) ∧
      RegisterInteractiveObject (some 5)
          (step (.register (some 7)) (step (.register (some 5)) construct).1).1 =
        ((step (.register (some 7)) (step (.register (some 5)) construct).1).1, []) := by
  have hreach : ReachableM (step (.register (some 7)) (step (.register (some 5)) construct).1).1 :=
    ReachableM.step (.register (some 7))
      (ReachableM.step (.register (some 5)) ReachableM.construct (by unfold RegOk; decide))
      (by unfold RegOk; decide)
  have h := c5_registry_ids_strictly_increasing _ hreach
  exact ⟨h.1, h.2 5 ⟨⟨1, 5⟩, by decide, rfl⟩⟩

/-- C6: in every reachable registry state, `SelectedObjectId` is either
`INDEX_NONE` or the `ObjectId` of a record currently present in
`RegisteredObjects` whose component handle equals `SelectedObject`. -/
theorem c6_selection_matches_registry (s : ManagerState) (h : ReachableM s) :
    s.SelectedObjectId = INDEX_NONE ∨
    ∃ r ∈ s.RegisteredObjects, r.ObjectId = s.SelectedObjectId ∧
      s.SelectedObject = some r.Component := by
  rcases (reach_inv s h).sel with ⟨h1, _⟩ | h2
  · exact Or.inl h1
  · exact Or.inr h2

/-- Witness for C6 at the concrete state with component 5 registered and
autoselected. -/
theorem c6_selection_matches_registry_witness :
    (step (.register (some 5)) construct).1.SelectedObjectId = INDEX_NONE ∨
    ∃ r ∈ (step (.register (some 5)) construct).1.RegisteredObjects,
      r.ObjectId = (step (.register (some 5)) construct).1.SelectedObjectId ∧
        (step (.register (some 5)) construct).1.SelectedObject = some r.Component :=
  c6_selection_matches_registry _
    (ReachableM.step (.register (some 5)) ReachableM.construct (by unfold RegOk; decide))

/-- C7: every public subsystem operation that changes the list of
registered records broadcasts `OnObjectsListChanged` with a snapshot of the
updated list before returning, and every public operation that finishes
with a different `SelectedObjectId` than it started with broadcasts
`OnSelectedObjectChanged` carrying the final `SelectedObjectId`. -/
theorem c7_operations_broadcast (s : ManagerState) (h : ReachableM s) (o : ManagerOp)
    (hok : RegOk o s) :
    ((step o s).1.RegisteredObjects ≠ s.RegisteredObjects →
      BEvent.listChanged (listItems (step o s).1) ∈ (step o s).2) ∧
    ((step o s).1.SelectedObjectId ≠ s.SelectedObjectId →
      BEvent.selectionChanged (step o s).1.SelectedObjectId ∈ (step o s).2) := by
  have hInv := reach_inv s h
  cases o with
  | register c =>
    cases c with
    | none => exact ⟨fun hne => absurd rfl hne, fun hne => absurd rfl hne⟩
    | some c =>
      simp only [step]
      cases hf : FindRecordByComponent s c with
      | some r =>
        rw [register_dup_spec s c hInv r hf]
        exact ⟨fun hne => absurd rfl hne, fun hne => absurd rfl hne⟩
      | none =>
        have hc : s.destroyed.contains c = false := hok
        have hnot := (findByComp_none s c hInv).mp hf
        rw [register_new_spec s c hInv hc hf]
        by_cases hsel : s.SelectedObjectId = INDEX_NONE
        · rw [if_pos hsel]
          have hInv1 := inv_select _ (inv_append s c hInv hc hnot) ⟨s.NextObjectId, c⟩
            (List.mem_append.mpr (Or.inr (by simp)))
          constructor
          · intro _
            rw [listItems_eq _ hInv1.live]
            simp [registeredIds]
          · intro _
            simp
        · rw [if_neg hsel]
          have hInv1 := inv_append s c hInv hc hnot
          constructor
          · intro _
            rw [listItems_eq _ hInv1.live]
            simp [registeredIds]
          · intro hne
            exact absurd rfl hne
  | unregister c =>
    cases c with
    | none => exact ⟨fun hne => absurd rfl hne, fun hne => absurd rfl hne⟩
    | some c =>
      simp only [step]
      cases hrem2 : (removeFirstBy (fun r => decide (r.Component = c)) s.RegisteredObjects).2 with
      | none =>
        obtain ⟨_, hall⟩ := removeFirstBy_none _ _ hrem2
        have hno : ∀ r ∈ s.RegisteredObjects, r.Component ≠ c := fun r hr => by
          have := hall r hr
          simpa using this
        rw [unregister_notfound_spec s c hInv hno]
        exact ⟨fun hne => absurd rfl hne, fun hne => absurd rfl hne⟩
      | some r0 =>
        obtain ⟨l1, l2, hsplit, hl1, _, _⟩ := removeFirstBy_some _ _ _ hrem2
        have hrem : removeFirstBy (fun r => decide (r.Component = c)) s.RegisteredObjects =
            (l1 ++ l2, some r0) := by
          have hpair : removeFirstBy (fun r => decide (r.Component = c)) s.RegisteredObjects =
              ((removeFirstBy (fun r => decide (r.Component = c)) s.RegisteredObjects).1,
               (removeFirstBy (fun r => decide (r.Component = c)) s.RegisteredObjects).2) := rfl
          rw [hpair, hl1, hrem2]
        rw [unregister_found_spec s c hInv l1 l2 r0 hsplit hrem]
        by_cases hsel : s.SelectedObjectId = r0.ObjectId
        · rw [if_pos hsel]
          have hInv1 := inv_remove s l1 l2 r0 hInv hsplit
          constructor
          · intro _
            rw [listItems_eq _ hInv1.live]
            simp [registeredIds, clearSelectionFields]
          · intro _
            simp [clearSelectionFields]
        · rw [if_neg hsel]
          have hInv1 := inv_remove_keep s l1 l2 r0 hInv hsplit hsel
          constructor
          · intro _
            rw [listItems_eq _ hInv1.live]
            simp [registeredIds]
          · intro hne
            exact absurd rfl hne
  | selectById i =>
    simp only [step]
    by_cases heq : i = s.SelectedObjectId
    · rw [selectById_same_spec s i heq]
      exact ⟨fun hne => absurd rfl hne, fun hne => absurd rfl hne⟩
    · cases hfe : s.RegisteredObjects.find? (fun r => decide (r.ObjectId = i)) with
      | none =>
        rw [selectById_notfound_spec s i hInv heq hfe]
        exact ⟨fun hne => absurd rfl hne, fun hne => absurd rfl hne⟩
      | some r =>
        rw [selectById_found_spec s i hInv heq r hfe]
        exact ⟨fun hne => absurd rfl hne, fun _ => by simp⟩
  | selectByIndex i =>
    simp only [step]
    rcases selectByIndex_spec s i hInv with hspec | ⟨r, _, _, hspec⟩
    · rw [hspec]
      exact ⟨fun hne => absurd rfl hne, fun hne => absurd rfl hne⟩
    · rw [hspec]
      exact ⟨fun hne => absurd rfl hne, fun _ => by simp⟩
  | clearSelection =>
    simp only [step]
    rcases clear_spec s with hspec | hspec
    · rw [hspec]
      exact ⟨fun hne => absurd rfl hne, fun hne => absurd rfl hne⟩
    · rw [hspec]
      exact ⟨fun hne => absurd rfl hne, fun _ => by simp [clearSelectionFields]⟩
  | setColor col =>
    simp only [step, (setColor_spec col s).1, (setColor_spec col s).2]
    exact ⟨fun hne => absurd rfl hne, fun hne => absurd rfl hne⟩
  | setScale x =>
    simp only [step, (setScale_spec x s).1, (setScale_spec x s).2]
    exact ⟨fun hne => absurd rfl hne, fun hne => absurd rfl hne⟩
  | deleteSelected =>
    simp only [step]
    cases hg : weakGet s s.SelectedObject with
    | none =>
      rw [delete_guard_spec s hg]
      exact ⟨fun hne => absurd rfl hne, fun hne => absurd rfl hne⟩
    | some c =>
      obtain ⟨l1, l2, r0, hsplit, _, hcomp, hrem⟩ := delete_setup s c hInv hg
      rw [delete_found_spec s c l1 l2 r0 hInv hg hsplit hcomp hrem]
      cases hh : (l1 ++ l2).head? with
      | some f =>
        have hmemf : f ∈ l1 ++ l2 := List.mem_of_mem_head? (Option.mem_def.mpr hh)
        have hInv1 := inv_select _ (inv_delete_mid s hInv c l1 l2 r0 hsplit hcomp) f hmemf
        simp only [hh]
        constructor
        · intro _
          rw [listItems_eq _ hInv1.live]
          simp [registeredIds]
        · intro _
          simp
      | none =>
        have hInv1 := inv_delete_mid s hInv c l1 l2 r0 hsplit hcomp
        simp only [hh]
        constructor
        · intro _
          rw [listItems_eq _ hInv1.live]
          simp [registeredIds]
        · intro _
          simp
  | getList =>
    simp only [step]
    rw [getList_eq s hInv]
    exact ⟨fun hne => absurd rfl hne, fun hne => absurd rfl hne⟩

/-- Witness for C7 at the concrete register operation on the initial state:
both broadcasts occur. -/
theorem c7_operations_broadcast_witness :
    BEvent.listChanged (listItems (step (.register (some 5)) construct).1) ∈
        (step (.register (some 5)) construct).2 ∧
      BEvent.selectionChanged (step (.register (some 5)) construct).1.SelectedObjectId ∈
        (step (.register (some 5)) construct).2 := by
  have h := c7_operations_broadcast construct ReachableM.construct (.register (some 5))
    (by unfold RegOk; decide)
  exact ⟨h.1 (by decide), h.2 (by decide)⟩

/-- C9: after a `DeleteSelectedObject` call that removed a record, the first
remaining record (when any) becomes the current selection, and with no
remaining records the selection is `INDEX_NONE`. -/
theorem c9_delete_selects_first_remaining (s : ManagerState) (h : ReachableM s)
    (hsucc : (DeleteSelectedObject s).2.2 = true) :
    ((DeleteSelectedObject s).1.RegisteredObjects = [] →
      (DeleteSelectedObject s).1.SelectedObjectId = INDEX_NONE) ∧
    (∀ f, (DeleteSelectedObject s).1.RegisteredObjects.head? = some f →
      (DeleteSelectedObject s).1.SelectedObjectId = f.ObjectId ∧
      (DeleteSelectedObject s).1.SelectedObject = some f.Component) := by
  have hInv := reach_inv s h
  cases hg : weakGet s s.SelectedObject with
  | none =>
    rw [delete_guard_spec s hg] at hsucc
    cases hsucc
  | some c =>
    obtain ⟨l1, l2, r0, hsplit, _, hcomp, hrem⟩ := delete_setup s c hInv hg
    rw [delete_found_spec s c l1 l2 r0 hInv hg hsplit hcomp hrem]
    cases hh : (l1 ++ l2).head? with
    | some f =>
      simp only [hh]
      constructor
      · intro hemp
        rw [hemp] at hh
        cases hh
      · intro f2 hf2
        cases hf2
        exact ⟨rfl, rfl⟩
    | none =>
      simp only [hh]
      constructor
      · intro _
        trivial
      · intro f2 hf2
        cases hf2

/-- Witness for C9 at the concrete state with components 5 and 6 registered
(ids 1 and 2, id 1 selected): deleting leaves record 2 selected. -/
theorem c9_delete_selects_first_remaining_witness :
    (DeleteSelectedObject
        (step (.register (some 6)) (step (.register (some 5)) construct).1).1).1.SelectedObjectId =
      (2 : Int) ∧
    (DeleteSelectedObject
        (step (.register (some 6)) (step (.register (some 5)) construct).1).1).1.SelectedObject =
      some 6 := by
  have hreach : ReachableM (step (.register (some 6)) (step (.register (some 5)) construct).1).1 :=
    ReachableM.step (.register (some 6))
      (ReachableM.step (.register (some 5)) ReachableM.construct (by unfold RegOk; decide))
      (by unfold RegOk; decide)
  have h := (c9_delete_selects_first_remaining _ hreach (by decide)).2 ⟨2, 6⟩ (by decide)
  exact h

end UInteractiveObjectManagerSubsystem

end InteractiveObjectManager
